import Mathlib

/-! Pico keyboard firmware: display double buffer, string descriptors, startup.

A shallow embedding of `src/ssd1306.cc` (the SSD1306 status display output
device), of `tud_descriptor_string_cb` in `src/usb.cc` and of `main` in
`src/main.cc`, followed by the theorems that settle the properties stated
about them.

Conventions.
* C++ member names are kept (`buffer_idx_`, `send_buffer_`, ...).
* `uint32_t` seconds are natural numbers reduced modulo `2 ^ 32` where the code
  truncates or subtracts.
* The drawing library `pico-ssd1306` is an external collaborator: its entry
  points are the fields of `Renderer`, and every theorem that does not name a
  contract of the library holds for all of them.
* The two-wire bus primitive `i2c_write_blocking` is an external collaborator:
  it is a function from the bytes written to the integer it returns.
-/

namespace PicoKeyboard

/-! ## Constants of the display library header -/

/-- Number of bytes of one frame: 128 columns times 8 pages (`FRAMEBUFFER_SIZE`). -/
def FRAMEBUFFER_SIZE : Nat := 1024

/-- Control byte that opens the block transfer of a frame. -/
def SSD1306_STARTLINE : Nat := 0x40

/-- Panel-off command. -/
def SSD1306_DISPLAY_OFF : Nat := 0xAE

/-- Panel-on command. -/
def SSD1306_DISPLAY_ON : Nat := 0xAF

/-- Column-address window command. -/
def SSD1306_COLUMNADDR : Nat := 0x21

/-- Page-address window command. -/
def SSD1306_PAGEADDR : Nat := 0x22

/-! ## Data model of `SSD1306Display` -/

/-- One slot of `double_buffer_`: a `std::array<uint8_t, FRAMEBUFFER_SIZE>`. -/
structure Frame where
  bytes : List Nat
  size_eq : bytes.length = FRAMEBUFFER_SIZE
  byte_lt : ∀ b ∈ bytes, b < 256

instance : DecidableEq Frame := fun f g =>
  if h : f.bytes = g.bytes then isTrue (by cases f; cases g; cases h; rfl)
  else isFalse (fun e => h (by rw [e]))

/-- The frame `std::fill(..., 0)` leaves in a slot. -/
def Frame.zero : Frame where
  bytes := List.replicate FRAMEBUFFER_SIZE 0
  size_eq := List.length_replicate _ _
  byte_lt := by
    intro b hb
    rw [List.eq_of_mem_replicate hb]
    decide

/-- Drawing mode (`ScreenOutputDevice::Mode`, cast to the library's `WriteMode`). -/
inductive Mode
  | ADD
  | SUBTRACT
  | INVERT
  deriving DecidableEq, Repr

/-- Built-in fonts (`ScreenOutputDevice::Font`): the enumerators the `switch`
of `DrawText` names. Its `default` arm, which draws nothing, is not reached by
a value of the enumeration. -/
inductive Font
  | F5X8
  | F8X8
  | F12X16
  | F16X32
  deriving DecidableEq, Repr

/-- The drawing library as configured by the constructor (panel size and
orientation): each entry point maps the frame its buffer pointer designates to
the frame it leaves there. Coordinates are passed as `x` (column) then `y`
(row), the way the library takes them. The four tables are its font blobs. -/
structure Renderer where
  setPixel : Frame → Nat → Nat → Mode → Frame
  drawLine : Frame → Nat → Nat → Nat → Nat → Mode → Frame
  fillRect : Frame → Nat → Nat → Nat → Nat → Mode → Frame
  drawRect : Frame → Nat → Nat → Nat → Nat → Mode → Frame
  drawChar : Frame → List Nat → Char → Nat → Nat → Mode → Frame
  font_5x8 : List Nat
  font_8x8 : List Nat
  font_12x16 : List Nat
  font_16x32 : List Nat

/-- The member variables of `SSD1306Display` that the tick functions and the
mutators read or write. `display_buffer_` is the slot whose storage was last
handed to `display_->setBuffer`, that is the slot the library draws into. -/
structure SSD1306Display where
  num_rows_ : Nat
  sleep_s_ : Nat
  buffer_idx_ : Fin 2
  buffer_changed_ : Bool
  send_buffer_ : Bool
  last_active_s_ : Nat
  sleep_ : Bool
  double_buffer_ : Fin 2 → Frame
  display_buffer_ : Fin 2

/-- Whole seconds of a microsecond clock value, as stored in a `uint32_t`
(`time_us_64() / 1000000`). -/
def seconds32 (time_us : Nat) : Nat := (time_us / 1000000) % 2 ^ 32

/-- Subtraction of two `uint32_t` values (wraps modulo `2 ^ 32`). -/
def sub32 (a b : Nat) : Nat := (a % 2 ^ 32 + (2 ^ 32 - b % 2 ^ 32)) % 2 ^ 32

/-- The other slot index: `(idx + 1) % 2`. -/
def otherIdx (idx : Fin 2) : Fin 2 := ⟨(idx.val + 1) % 2, Nat.mod_lt _ (by decide)⟩

/-- Store frame `f` in slot `i` of a double buffer. -/
def setSlot (db : Fin 2 → Frame) (i : Fin 2) (f : Frame) : Fin 2 → Frame :=
  fun j => if j = i then f else db j

/-- The constructor: both slots zeroed, slot 1 handed to the library, slot 0
active, the new-data flag set, awake, `last_active_s_` read from the clock
(`time_us` is the value of `time_us_64()` at the end of construction). -/
def SSD1306Display.construct (num_rows sleep_s time_us : Nat) : SSD1306Display where
  num_rows_ := num_rows
  sleep_s_ := sleep_s
  buffer_idx_ := 0
  buffer_changed_ := false
  send_buffer_ := true
  last_active_s_ := seconds32 time_us
  sleep_ := false
  double_buffer_ := fun _ => Frame.zero
  display_buffer_ := 1

/-! ## Producer side: start of tick, mutators, finalize -/

/-- `SSD1306Display::StartOfInputTick`. -/
def StartOfInputTick (s : SSD1306Display) : SSD1306Display :=
  { s with buffer_changed_ := false }

/-- `SSD1306Display::FinalizeInputTickOutput` (the whole body runs under the lock). -/
def FinalizeInputTickOutput (s : SSD1306Display) : SSD1306Display :=
  if s.buffer_changed_ then
    let buf_idx := otherIdx s.buffer_idx_
    { s with
      double_buffer_ := setSlot s.double_buffer_ s.buffer_idx_ (s.double_buffer_ buf_idx)
      display_buffer_ := s.buffer_idx_
      buffer_idx_ := buf_idx
      send_buffer_ := true }
  else s

/-- Apply a library call to the slot the library currently draws into. -/
def draw (g : Frame → Frame) (s : SSD1306Display) : SSD1306Display :=
  { s with double_buffer_ :=
      setSlot s.double_buffer_ s.display_buffer_ (g (s.double_buffer_ s.display_buffer_)) }

/-- `SSD1306Display::SetPixel`. -/
def SetPixel (r : Renderer) (row col : Nat) (mode : Mode) (s : SSD1306Display) :
    SSD1306Display :=
  { draw (fun f => r.setPixel f col row mode) s with buffer_changed_ := true }

/-- `SSD1306Display::DrawLine`. -/
def DrawLine (r : Renderer) (start_row start_col end_row end_col : Nat) (mode : Mode)
    (s : SSD1306Display) : SSD1306Display :=
  { draw (fun f => r.drawLine f start_col start_row end_col end_row mode) s with
    buffer_changed_ := true }

/-- `SSD1306Display::DrawRect`. -/
def DrawRect (r : Renderer) (start_row start_col end_row end_col : Nat) (fill : Bool)
    (mode : Mode) (s : SSD1306Display) : SSD1306Display :=
  let s1 :=
    if fill then draw (fun f => r.fillRect f start_col start_row end_col end_row mode) s
    else draw (fun f => r.drawRect f start_col start_row end_col end_row mode) s
  { s1 with buffer_changed_ := true }

/-- The loop of the custom-font `DrawText`: one `drawChar` per character, the
column offset growing by the font width. -/
def drawTextLoop (r : Renderer) (font_buf : List Nat) (width row col : Nat) (mode : Mode) :
    List Char → Nat → SSD1306Display → SSD1306Display
  | [], _, s => s
  | c :: cs, col_offset, s =>
    drawTextLoop r font_buf width row col mode cs ((col_offset + width) % 2 ^ 32)
      (draw (fun f => r.drawChar f font_buf c ((col + col_offset) % 2 ^ 32) row mode) s)

/-- `SSD1306Display::DrawText` with a custom font: `font_buf` is the blob
`font.GetFont()` returns, its first byte the glyph width. -/
def DrawTextCustom (r : Renderer) (row col : Nat) (text : List Char) (font_buf : List Nat)
    (mode : Mode) (s : SSD1306Display) : SSD1306Display :=
  let width := font_buf.headD 0 % 256
  { drawTextLoop r font_buf width row col mode text 0 s with buffer_changed_ := true }

/-- `SSD1306Display::DrawText` with a built-in font. -/
def DrawText (r : Renderer) (row col : Nat) (text : List Char) (font : Font) (mode : Mode)
    (s : SSD1306Display) : SSD1306Display :=
  match font with
  | Font.F5X8 => DrawTextCustom r row col text r.font_5x8 mode s
  | Font.F8X8 => DrawTextCustom r row col text r.font_8x8 mode s
  | Font.F12X16 => DrawTextCustom r row col text r.font_12x16 mode s
  | Font.F16X32 => DrawTextCustom r row col text r.font_16x32 mode s

/-- The `for` loop of `ChangeActiveLayers`, from index `i` on; `fuel` bounds the
number of iterations (the loop stops by itself before index 16). -/
def changeActiveLayersLoop (r : Renderer) (layers : List Bool) :
    Nat → Nat → SSD1306Display → SSD1306Display
  | 0, _, s => s
  | fuel + 1, i, s =>
    if i < layers.length ∧ i < 16 then
      changeActiveLayersLoop r layers fuel (i + 1)
        (DrawRect r 1 (i * 8 + 1) 7 (i * 8 + 7) true
          (if layers.getD i false then Mode.ADD else Mode.SUBTRACT) s)
    else s

/-- `SSD1306Display::ChangeActiveLayers`. Sixteen iterations always suffice. -/
def ChangeActiveLayers (r : Renderer) (layers : List Bool) (s : SSD1306Display) :
    SSD1306Display :=
  changeActiveLayersLoop r layers 16 0 s

/-! ## Consumer side: `OutputTick` -/

/-- What one call of `OutputTick` does to the lock, to the members shared with
the producer task, and to the bus, in program order. Assignments to the locals
of the call and to `sleep_`, which only this task touches, are not events. -/
inductive Event
  | take
  | give
  | copy (idx : Fin 2)
  | storeLastActive (t : Nat)
  | storeSendBuffer (b : Bool)
  | i2cWrite (data : List Nat) (result : Int)
  deriving DecidableEq, Repr

/-- The state `OutputTick` leaves and the events of the call. -/
structure TickResult where
  state : SSD1306Display
  trace : List Event

/-- `SSD1306Display::CMD`: one blocking bus write of the two bytes `0x00, cmd`. -/
def CMD (i2c : List Nat → Int) (cmd : Nat) : Event :=
  Event.i2cWrite [0x00, cmd] (i2c [0x00, cmd])

/-- The scratch buffer `local_copy` once the active slot has been copied into it. -/
def localCopy (s : SSD1306Display) : List Nat :=
  SSD1306_STARTLINE :: (s.double_buffer_ s.buffer_idx_).bytes

/-- Modelled from the spec: the constructor of `LockSemaphore` (a scoped
mutual-exclusion wrapper whose source is not among the repository sources)
takes the lock where the guard is declared. -/
abbrev lockGuardEnter : List Event := [Event.take]

/-- Modelled from the spec: the destructor of `LockSemaphore` gives the lock
back where the block that declares the guard ends, on every exit path. -/
abbrev lockGuardExit : List Event := [Event.give]

/-- The block of `OutputTick` guarded by `LockSemaphore lock(semaphore_)`: the
state it leaves, the local flag `send_buffer`, and its events. -/
def lockedSection (curr_s : Nat) (s : SSD1306Display) :
    SSD1306Display × Bool × List Event :=
  if s.send_buffer_ then
    ({ s with last_active_s_ := curr_s, send_buffer_ := false }, true,
      lockGuardEnter ++
        [Event.copy s.buffer_idx_, Event.storeLastActive curr_s, Event.storeSendBuffer false] ++
        lockGuardExit)
  else
    ({ s with send_buffer_ := false }, false,
      lockGuardEnter ++ [Event.storeSendBuffer false] ++ lockGuardExit)

/-- `SSD1306Display::OutputTick`; `time_us` is the value `time_us_64()` returns
and `i2c` the answer of `i2c_write_blocking` to each write. -/
def OutputTick (i2c : List Nat → Int) (time_us : Nat) (s : SSD1306Display) : TickResult :=
  let curr_s := seconds32 time_us
  let local_copy := localCopy s
  let (s1, send_buffer, locked) := lockedSection curr_s s
  if !s1.sleep_ && decide (sub32 curr_s s1.last_active_s_ ≥ s1.sleep_s_) then
    ⟨{ s1 with sleep_ := true }, locked ++ [CMD i2c SSD1306_DISPLAY_OFF]⟩
  else if send_buffer then
    let (s2, wake) :=
      if s1.sleep_ then ({ s1 with sleep_ := false }, [CMD i2c SSD1306_DISPLAY_ON])
      else (s1, [])
    ⟨s2,
      locked ++ wake ++
        [CMD i2c SSD1306_PAGEADDR, CMD i2c 0x00, CMD i2c 0x07,
         CMD i2c SSD1306_COLUMNADDR, CMD i2c 0x00, CMD i2c 127,
         Event.i2cWrite local_copy (i2c local_copy)]⟩
  else ⟨s1, locked⟩

/-- The bus writes of a trace, in order: the bytes of each `i2c_write_blocking`. -/
def busWrites : List Event → List (List Nat)
  | [] => []
  | Event.i2cWrite d _ :: es => d :: busWrites es
  | _ :: es => busWrites es

/-! ## Operations and reachable states -/

/-- One call on the device. -/
inductive Op
  | startOfInputTick
  | finalizeInputTickOutput
  | outputTick (time_us : Nat)
  | setPixel (row col : Nat) (mode : Mode)
  | drawLine (start_row start_col end_row end_col : Nat) (mode : Mode)
  | drawRect (start_row start_col end_row end_col : Nat) (fill : Bool) (mode : Mode)
  | drawText (row col : Nat) (text : List Char) (font : Font) (mode : Mode)
  | drawTextCustom (row col : Nat) (text : List Char) (font_buf : List Nat) (mode : Mode)
  | changeActiveLayers (layers : List Bool)

/-- The mutators: the drawing calls, `ChangeActiveLayers` counting when its list
is not empty (with an empty list it draws nothing). -/
def Op.isMutator : Op → Bool
  | Op.setPixel _ _ _ => true
  | Op.drawLine _ _ _ _ _ => true
  | Op.drawRect _ _ _ _ _ _ => true
  | Op.drawText _ _ _ _ _ => true
  | Op.drawTextCustom _ _ _ _ _ => true
  | Op.changeActiveLayers layers => !layers.isEmpty
  | _ => false

/-- Is the call `StartOfInputTick`? -/
def Op.isStart : Op → Bool
  | Op.startOfInputTick => true
  | _ => false

/-- Run one call. -/
def step (r : Renderer) (i2c : List Nat → Int) (s : SSD1306Display) : Op → SSD1306Display
  | Op.startOfInputTick => StartOfInputTick s
  | Op.finalizeInputTickOutput => FinalizeInputTickOutput s
  | Op.outputTick time_us => (OutputTick i2c time_us s).state
  | Op.setPixel row col mode => SetPixel r row col mode s
  | Op.drawLine r0 c0 r1 c1 mode => DrawLine r r0 c0 r1 c1 mode s
  | Op.drawRect r0 c0 r1 c1 fill mode => DrawRect r r0 c0 r1 c1 fill mode s
  | Op.drawText row col text font mode => DrawText r row col text font mode s
  | Op.drawTextCustom row col text font_buf mode => DrawTextCustom r row col text font_buf mode s
  | Op.changeActiveLayers layers => ChangeActiveLayers r layers s

/-- Run a sequence of calls, first to last. -/
def run (r : Renderer) (i2c : List Nat → Int) (s : SSD1306Display) (ops : List Op) :
    SSD1306Display :=
  ops.foldl (step r i2c) s

/-- Is the event one of the steps the locked block may take: the copy of slot
`idx` into the scratch buffer, or a store to `last_active_s_` or `send_buffer_`? -/
def Event.isLockedWork (idx : Fin 2) : Event → Bool
  | Event.copy i => decide (i = idx)
  | Event.storeLastActive _ => true
  | Event.storeSendBuffer _ => true
  | _ => false

/-- Is the event a bus write? -/
def Event.isBusWrite : Event → Bool
  | Event.i2cWrite _ _ => true
  | _ => false

/-- Did some bus write of the trace carry exactly `block` and report all of its
bytes written (the success value of `i2c_write_blocking`)? -/
def blockDelivered (block : List Nat) : List Event → Bool
  | [] => false
  | Event.i2cWrite d res :: es =>
    (decide (res = (block.length : Int)) && decide (d = block)) || blockDelivered block es
  | _ :: es => blockDelivered block es

/-! ## Layer indicators and the contract of `fillRect` -/

/-- Number of columns of the panel (`num_cols_(128)` in the constructor). -/
def PANEL_COLS : Nat := 128

/-- Pixel `(row, col)` lies in the rectangle of layer indicator `i`:
rows 1..7, columns `8 i + 1 .. 8 i + 7`. -/
def inIndicator (i row col : Nat) : Prop :=
  1 ≤ row ∧ row ≤ 7 ∧ 8 * i + 1 ≤ col ∧ col ≤ 8 * i + 7

instance (i row col : Nat) : Decidable (inIndicator i row col) := by
  unfold inIndicator; infer_instance

/-- Modelled from the spec: the three drawing modes ("Add sets the bit, Subtract
clears it, Invert toggles it"), as the new value of a pixel whose old value is
the argument. The library source is not part of the repository sources. -/
def Mode.combine : Mode → Bool → Bool
  | Mode.ADD, _ => true
  | Mode.SUBTRACT, _ => false
  | Mode.INVERT, b => !b

/-- Modelled from the spec: the contract of the library function `fillRect` (its
source is not part of the repository sources) for a panel of `rows` rows and
`PANEL_COLS` columns, with respect to a pixel read-out `pixel f row col` of a
frame: a rectangle that lies on the panel has each of its pixels combined with
the mode, and every other pixel of the panel keeps its value. -/
def FillRectContract (pixel : Frame → Nat → Nat → Bool) (rows : Nat)
    (fillRect : Frame → Nat → Nat → Nat → Nat → Mode → Frame) : Prop :=
  ∀ (f : Frame) (x_start y_start x_end y_end : Nat) (mode : Mode) (row col : Nat),
    x_end < PANEL_COLS → y_end < rows → col < PANEL_COLS → row < rows →
    pixel (fillRect f x_start y_start x_end y_end mode) row col =
      if x_start ≤ col ∧ col ≤ x_end ∧ y_start ≤ row ∧ row ≤ y_end
      then mode.combine (pixel f row col) else pixel f row col

/-! ## A renderer for the 128 x 64 panel, used to instantiate the theorems

The frame is laid out as the panel reads it: 8 pages of 128 columns, the byte of
pixel `(row, col)` at offset `col + 128 * (row / 8)`, its bit `row % 8`. -/

/-- Offset of the byte that holds pixel `(row, col)`. -/
def pixelByte (row col : Nat) : Nat := col + 128 * (row / 8)

/-- Value of pixel `(row, col)` of a frame. -/
def getPixel (f : Frame) (row col : Nat) : Bool :=
  (f.bytes.getD (pixelByte row col) 0).testBit (row % 8)

/-- The byte after the bits of `mask` have been set, cleared or toggled. -/
def Mode.combineByte : Mode → Nat → Nat → Nat
  | Mode.ADD, byte, mask => byte ||| mask
  | Mode.SUBTRACT, byte, mask => byte &&& (255 ^^^ mask)
  | Mode.INVERT, byte, mask => byte ^^^ mask

/-- Write one pixel; coordinates off the panel are ignored. -/
def panelSetPixel (f : Frame) (x y : Nat) (mode : Mode) : Frame :=
  if x < 128 ∧ y < 64 then
    { bytes := f.bytes.set (pixelByte y x)
        (mode.combineByte (f.bytes.getD (pixelByte y x) 0) (2 ^ (y % 8)))
      size_eq := by rw [List.length_set]; exact f.size_eq
      byte_lt := by
        intro b hb
        rcases List.mem_or_eq_of_mem_set hb with h | h
        · exact f.byte_lt b h
        · subst h
          have hold : f.bytes.getD (pixelByte y x) 0 < 2 ^ 8 := by
            rw [List.getD_eq_getElem?_getD]
            cases hv : f.bytes[pixelByte y x]? with
            | none => simp
            | some v => exact f.byte_lt v (List.getElem?_mem hv)
          have hmask : 2 ^ (y % 8) < 2 ^ 8 :=
            Nat.pow_lt_pow_right (by decide) (Nat.mod_lt _ (by decide))
          cases mode
          · exact Nat.or_lt_two_pow hold hmask
          · exact Nat.lt_of_le_of_lt Nat.and_le_left hold
          · exact Nat.xor_lt_two_pow hold hmask }
  else f

/-- Fill the rectangle with corners `(x_start, y_start)` and `(x_end, y_end)`,
both included, column by column. -/
def panelFillRect (f : Frame) (x_start y_start x_end y_end : Nat) (mode : Mode) : Frame :=
  (List.range' x_start (x_end + 1 - x_start)).foldl
    (fun g x =>
      (List.range' y_start (y_end + 1 - y_start)).foldl (fun h y => panelSetPixel h x y mode) g)
    f

/-- Point `k` of `n` on the way from `a` to `b`, rounded to the nearest integer. -/
def lerp (a b k n : Nat) : Nat :=
  if n = 0 then a
  else if a ≤ b then a + ((b - a) * k + n / 2) / n
  else a - ((a - b) * k + n / 2) / n

/-- Rasterise a line by stepping along its longer axis. -/
def panelDrawLine (f : Frame) (x_start y_start x_end y_end : Nat) (mode : Mode) : Frame :=
  let n := max (Nat.dist x_start x_end) (Nat.dist y_start y_end)
  (List.range (n + 1)).foldl
    (fun g k => panelSetPixel g (lerp x_start x_end k n) (lerp y_start y_end k n) mode) f

/-- Outline of a rectangle: its four sides. -/
def panelDrawRect (f : Frame) (x_start y_start x_end y_end : Nat) (mode : Mode) : Frame :=
  panelDrawLine
    (panelDrawLine
      (panelDrawLine (panelDrawLine f x_start y_start x_end y_start mode)
        x_start y_end x_end y_end mode)
      x_start y_start x_start y_end mode)
    x_end y_start x_end y_end mode

/-- Blit one glyph of a fixed-width font blob (width, height, then the glyph
bits column by column, starting at character 32). -/
def panelDrawChar (f : Frame) (font : List Nat) (c : Char) (anchor_x anchor_y : Nat)
    (mode : Mode) : Frame :=
  if c.toNat < 32 then f
  else
    let w := font.getD 0 0
    let h := font.getD 1 0
    let seek := (c.toNat - 32) * (w * h) / 8 + 2
    (List.range (w * h)).foldl
      (fun g k =>
        if (font.getD (seek + k / 8) 0).testBit (k % 8) then
          panelSetPixel g (anchor_x + k / h) (anchor_y + k % h) mode
        else g)
      f

/-- The renderer built from the functions above. Its font tables hold a 5 x 8
blob with the single glyph of the space character (blank) and headers only for
the other sizes, so text draws blank glyphs. -/
def panelRenderer : Renderer where
  setPixel := panelSetPixel
  drawLine := panelDrawLine
  fillRect := panelFillRect
  drawRect := panelDrawRect
  drawChar := panelDrawChar
  font_5x8 := [5, 8, 0, 0, 0, 0, 0]
  font_8x8 := [8, 8]
  font_12x16 := [12, 16]
  font_16x32 := [16, 32]

/-! ## Interleaved execution of one producer cycle and one `OutputTick`

The producer task runs mutators and then `FinalizeInputTickOutput`; the consumer
task runs `OutputTick`. Both are cut into their single loads and stores of the
shared members: a `std::copy` moves one byte per step, a library call is a
sequence of byte stores through the library's buffer pointer. The lock is
modelled from the spec: a scoped mutual-exclusion wrapper that is taken at the
declaration of `lock` and released at the end of the enclosing block. -/

/-- Modelled from the spec: the state of the device lock (`LockSemaphore` over
`semaphore_`, whose source is not among the repository sources): free, or held
by one of the two tasks. -/
inductive LockState
  | free
  | heldByProducer
  | heldByConsumer
  deriving DecidableEq, Repr

/-- Where the producer task stands in its cycle. -/
inductive ProducerPc
  | mutating
  | finalizeWait
  | finalizeTest
  | finalizeCopy (k : Nat)
  | finalizeSetBuffer
  | finalizeIdx
  | finalizeSend
  | finalizeGive
  | done
  deriving DecidableEq, Repr

/-- Where the consumer task stands in `OutputTick`. -/
inductive ConsumerPc
  | start
  | test
  | copy (k : Nat)
  | latch
  | stamp
  | clear
  | give
  | done
  deriving DecidableEq, Repr

/-- The producer is inside the block guarded by the lock. -/
def ProducerPc.critical : ProducerPc → Bool
  | ProducerPc.mutating => false
  | ProducerPc.finalizeWait => false
  | ProducerPc.done => false
  | _ => true

/-- The consumer is inside the block guarded by the lock. -/
def ConsumerPc.critical : ConsumerPc → Bool
  | ConsumerPc.start => false
  | ConsumerPc.done => false
  | _ => true

/-- One step of `std::copy`: byte `k` of `src` stored at byte `k` of `dst`. -/
def Frame.copyByte (dst src : Frame) (k : Nat) : Frame where
  bytes := dst.bytes.set k (src.bytes.getD k 0)
  size_eq := by rw [List.length_set]; exact dst.size_eq
  byte_lt := by
    intro b hb
    rcases List.mem_or_eq_of_mem_set hb with h | h
    · exact dst.byte_lt b h
    · subst h
      rw [List.getD_eq_getElem?_getD]
      cases hv : src.bytes[k]? with
      | none => simp
      | some v => exact src.byte_lt v (List.getElem?_mem hv)

/-- One byte store of a library call: value `v` (as a `uint8_t`) at byte `k`. -/
def Frame.writeByte (f : Frame) (k v : Nat) : Frame where
  bytes := f.bytes.set k (v % 256)
  size_eq := by rw [List.length_set]; exact f.size_eq
  byte_lt := by
    intro b hb
    rcases List.mem_or_eq_of_mem_set hb with h | h
    · exact f.byte_lt b h
    · subst h; exact Nat.mod_lt _ (by decide)

/-- The two tasks and what they share: the device members, the lock, the
program counters, and the locals of the two functions (`buf_idx` of
`FinalizeInputTickOutput`; `local_copy` without its constant first byte,
`send_buffer` and `curr_s` of `OutputTick`). -/
structure Sys where
  dev : SSD1306Display
  lock : LockState
  ppc : ProducerPc
  cpc : ConsumerPc
  buf_idx : Fin 2
  local_copy : Frame
  send_buffer : Bool
  curr_s : Nat

/-- The scheduler picks one of these at each step. -/
inductive Action
  | producerWrite (k v : Nat)
  | producerMark
  | producerCall
  | producer
  | consumer
  deriving DecidableEq, Repr

/-- The next step of the producer inside `FinalizeInputTickOutput`. A task that
waits for the lock, or has returned, stays where it is. -/
def producerStep (σ : Sys) : Sys :=
  match σ.ppc with
  | ProducerPc.mutating => σ
  | ProducerPc.finalizeWait =>
    if σ.lock = LockState.free then
      { σ with lock := LockState.heldByProducer, ppc := ProducerPc.finalizeTest }
    else σ
  | ProducerPc.finalizeTest =>
    if σ.dev.buffer_changed_ then
      { σ with buf_idx := otherIdx σ.dev.buffer_idx_, ppc := ProducerPc.finalizeCopy 0 }
    else { σ with ppc := ProducerPc.finalizeGive }
  | ProducerPc.finalizeCopy k =>
    if k < FRAMEBUFFER_SIZE then
      { σ with
        dev := { σ.dev with
          double_buffer_ := setSlot σ.dev.double_buffer_ σ.dev.buffer_idx_
            ((σ.dev.double_buffer_ σ.dev.buffer_idx_).copyByte
              (σ.dev.double_buffer_ σ.buf_idx) k) }
        ppc := ProducerPc.finalizeCopy (k + 1) }
    else { σ with ppc := ProducerPc.finalizeSetBuffer }
  | ProducerPc.finalizeSetBuffer =>
    { σ with
      dev := { σ.dev with display_buffer_ := σ.dev.buffer_idx_ }
      ppc := ProducerPc.finalizeIdx }
  | ProducerPc.finalizeIdx =>
    { σ with dev := { σ.dev with buffer_idx_ := σ.buf_idx }, ppc := ProducerPc.finalizeSend }
  | ProducerPc.finalizeSend =>
    { σ with dev := { σ.dev with send_buffer_ := true }, ppc := ProducerPc.finalizeGive }
  | ProducerPc.finalizeGive => { σ with lock := LockState.free, ppc := ProducerPc.done }
  | ProducerPc.done => σ

/-- The next step of the consumer inside `OutputTick`, up to the release of the
lock (after it the call works on `local_copy` and on the bus only). -/
def consumerStep (σ : Sys) : Sys :=
  match σ.cpc with
  | ConsumerPc.start =>
    if σ.lock = LockState.free then
      { σ with lock := LockState.heldByConsumer, cpc := ConsumerPc.test }
    else σ
  | ConsumerPc.test =>
    if σ.dev.send_buffer_ then { σ with cpc := ConsumerPc.copy 0 }
    else { σ with cpc := ConsumerPc.clear }
  | ConsumerPc.copy k =>
    if k < FRAMEBUFFER_SIZE then
      { σ with
        local_copy := σ.local_copy.copyByte (σ.dev.double_buffer_ σ.dev.buffer_idx_) k
        cpc := ConsumerPc.copy (k + 1) }
    else { σ with cpc := ConsumerPc.latch }
  | ConsumerPc.latch => { σ with send_buffer := σ.dev.send_buffer_, cpc := ConsumerPc.stamp }
  | ConsumerPc.stamp =>
    { σ with dev := { σ.dev with last_active_s_ := σ.curr_s }, cpc := ConsumerPc.clear }
  | ConsumerPc.clear =>
    { σ with dev := { σ.dev with send_buffer_ := false }, cpc := ConsumerPc.give }
  | ConsumerPc.give => { σ with lock := LockState.free, cpc := ConsumerPc.done }
  | ConsumerPc.done => σ

/-- One scheduled step. The first three actions belong to the mutator phase of
the producer: a byte store of a library call into the slot the library draws
into, the store `buffer_changed_ = true` that ends a mutator, and the call of
`FinalizeInputTickOutput`. -/
def concStep (σ : Sys) : Action → Sys
  | Action.producerWrite k v =>
    if σ.ppc = ProducerPc.mutating then
      { σ with dev := { σ.dev with
          double_buffer_ := setSlot σ.dev.double_buffer_ σ.dev.display_buffer_
            ((σ.dev.double_buffer_ σ.dev.display_buffer_).writeByte k v) } }
    else σ
  | Action.producerMark =>
    if σ.ppc = ProducerPc.mutating then
      { σ with dev := { σ.dev with buffer_changed_ := true } }
    else σ
  | Action.producerCall =>
    if σ.ppc = ProducerPc.mutating then { σ with ppc := ProducerPc.finalizeWait } else σ
  | Action.producer => producerStep σ
  | Action.consumer => consumerStep σ

/-- Run a schedule, first action to last. -/
def runSchedule (σ : Sys) (sched : List Action) : Sys :=
  sched.foldl concStep σ

/-- The two tasks at the start of a cycle on device state `s`: the producer
about to run mutators, the consumer about to enter `OutputTick` at clock value
`time_us` with `send_buffer` initialised to `false`; `scratch` is the content
of the uninitialised `local_copy`. -/
def Sys.start (s : SSD1306Display) (time_us : Nat) (scratch : Frame) : Sys where
  dev := s
  lock := LockState.free
  ppc := ProducerPc.mutating
  cpc := ConsumerPc.start
  buf_idx := 0
  local_copy := scratch
  send_buffer := false
  curr_s := seconds32 time_us

/-- The slot-ownership relation: the library draws into the non-active slot. -/
def TargetIsPending (s : SSD1306Display) : Prop :=
  s.display_buffer_ = otherIdx s.buffer_idx_

/-- Bytes `0 .. k - 1` of the two frames agree. -/
def prefixEq (k : Nat) (f g : Frame) : Prop :=
  ∀ j, j < k → f.bytes[j]? = g.bytes[j]?

/-- The lock is held by exactly the task that is inside its guarded block. -/
def lockInv (σ : Sys) : Prop :=
  match σ.lock with
  | LockState.free => σ.ppc.critical = false ∧ σ.cpc.critical = false
  | LockState.heldByProducer => σ.ppc.critical = true ∧ σ.cpc.critical = false
  | LockState.heldByConsumer => σ.ppc.critical = false ∧ σ.cpc.critical = true

/-- What holds of the shared members at each point of the producer, for a cycle
that started with active index `a` and active frame `A0`. -/
def producerInv (a : Fin 2) (A0 : Frame) (σ : Sys) : Prop :=
  match σ.ppc with
  | ProducerPc.mutating =>
    σ.dev.buffer_idx_ = a ∧ σ.dev.display_buffer_ = otherIdx a ∧ σ.dev.double_buffer_ a = A0
  | ProducerPc.finalizeWait =>
    σ.dev.buffer_idx_ = a ∧ σ.dev.display_buffer_ = otherIdx a ∧ σ.dev.double_buffer_ a = A0
  | ProducerPc.finalizeTest => σ.dev.buffer_idx_ = a ∧ σ.dev.double_buffer_ a = A0
  | ProducerPc.finalizeCopy _ => σ.buf_idx = otherIdx a
  | ProducerPc.finalizeSetBuffer => σ.buf_idx = otherIdx a
  | ProducerPc.finalizeIdx => σ.buf_idx = otherIdx a
  | ProducerPc.finalizeSend => σ.dev.buffer_idx_ = otherIdx a
  | ProducerPc.finalizeGive =>
    σ.dev.buffer_idx_ = otherIdx a ∨ (σ.dev.buffer_idx_ = a ∧ σ.dev.double_buffer_ a = A0)
  | ProducerPc.done =>
    σ.dev.buffer_idx_ = otherIdx a ∨ (σ.dev.buffer_idx_ = a ∧ σ.dev.double_buffer_ a = A0)

/-- The scratch buffer holds a whole frame: the one that was active when the
cycle started, or, the producer having returned from
`FinalizeInputTickOutput` with the active index flipped, the one in the active
slot. -/
def WholeFrame (a : Fin 2) (A0 : Frame) (σ : Sys) : Prop :=
  σ.local_copy = A0 ∨
  (σ.ppc = ProducerPc.done ∧ σ.dev.buffer_idx_ = otherIdx a ∧
    σ.local_copy = σ.dev.double_buffer_ σ.dev.buffer_idx_)

/-- What holds of the scratch buffer at each point of the consumer. -/
def consumerInv (a : Fin 2) (A0 : Frame) (σ : Sys) : Prop :=
  match σ.cpc with
  | ConsumerPc.start => σ.send_buffer = false
  | ConsumerPc.test => σ.send_buffer = false
  | ConsumerPc.copy k =>
    σ.send_buffer = false ∧
      prefixEq k σ.local_copy (σ.dev.double_buffer_ σ.dev.buffer_idx_)
  | ConsumerPc.latch => WholeFrame a A0 σ
  | ConsumerPc.stamp => WholeFrame a A0 σ
  | ConsumerPc.clear => σ.send_buffer = true → WholeFrame a A0 σ
  | ConsumerPc.give => σ.send_buffer = true → WholeFrame a A0 σ
  | ConsumerPc.done => σ.send_buffer = true → WholeFrame a A0 σ

/-- The invariant of the interleaved execution. -/
def ConcInv (a : Fin 2) (A0 : Frame) (σ : Sys) : Prop :=
  lockInv σ ∧ producerInv a A0 σ ∧ consumerInv a A0 σ

/-- From the call of `FinalizeInputTickOutput` on, slot `otherIdx a` holds the
frame `P` it held at the call, and the active index stays `a` until the store
that flips it. -/
def pendingInv (a : Fin 2) (P : Frame) (σ : Sys) : Prop :=
  σ.dev.double_buffer_ (otherIdx a) = P ∧
  match σ.ppc with
  | ProducerPc.mutating => False
  | ProducerPc.finalizeWait => σ.dev.buffer_idx_ = a
  | ProducerPc.finalizeTest => σ.dev.buffer_idx_ = a
  | ProducerPc.finalizeCopy _ => σ.dev.buffer_idx_ = a
  | ProducerPc.finalizeSetBuffer => σ.dev.buffer_idx_ = a
  | ProducerPc.finalizeIdx => σ.dev.buffer_idx_ = a
  | _ => True

/-! ## Concrete buses and states used to instantiate the theorems -/

/-- A bus on which every write succeeds: all bytes are reported written. -/
def ackBus : List Nat → Int := fun d => (d.length : Int)

/-- A bus on which no write is acknowledged: every write returns a negative
error code. -/
def nackBus : List Nat → Int := fun _ => -1

/-- The display `GetSSD1306Display` builds (64 rows, threshold 120 s), its
construction ending at second 1. -/
def bootDisplay : SSD1306Display := SSD1306Display.construct 64 120 1000000

/-- The boot display after its first `OutputTick` (at second 1) and the start of
the next input tick: awake, new-data flag clear. -/
def idleDisplay : SSD1306Display :=
  StartOfInputTick (OutputTick ackBus 1000000 bootDisplay).state

/-- The idle display after the `OutputTick` at second 121, which puts it to sleep. -/
def sleepingDisplay : SSD1306Display := (OutputTick ackBus 121000000 idleDisplay).state

/-- The sleeping display after one input tick that sets a pixel and publishes. -/
def publishedWhileAsleep : SSD1306Display :=
  FinalizeInputTickOutput (SetPixel panelRenderer 3 5 Mode.ADD (StartOfInputTick sleepingDisplay))

/-- Calls made on the boot display before a mutator. -/
def demoBefore : List Op := [Op.outputTick 1000000, Op.startOfInputTick]

/-- Calls made after the mutator and before `FinalizeInputTickOutput`. -/
def demoAfter : List Op := [Op.setPixel 3 5 Mode.INVERT, Op.outputTick 2000000]

/-- The mutator phase of a schedule: the producer draws one byte, ends the
mutator and calls `FinalizeInputTickOutput`. -/
def demoMutate : List Action :=
  [Action.producerWrite 0 255, Action.producerMark, Action.producerCall]

/-- The rest of the schedule: the producer runs `FinalizeInputTickOutput` to its
end, then the consumer runs `OutputTick` up to the release of the lock. -/
def demoDrain : List Action :=
  List.replicate (FRAMEBUFFER_SIZE + 7) Action.producer ++
    List.replicate (FRAMEBUFFER_SIZE + 7) Action.consumer

/-! ## String descriptors (`src/usb.cc`) -/

/-- Descriptor type code of a string descriptor (`TUSB_DESC_STRING`). -/
def TUSB_DESC_STRING : Nat := 0x03

/-- The characters of a string literal as `char` values. -/
def cstr (str : String) : List Nat := str.toList.map Char.toNat

/-- The table `string_desc_arr`; the three configured strings
(`CONFIG_USB_VENDER_NAME`, `CONFIG_USB_PRODUCT_NAME`, `CONFIG_USB_SERIAL`) are
parameters. A string is the list of its `char` values before the terminator. -/
def string_desc_arr (vendor product serial : List Nat) : List (List Nat) :=
  [cstr "", vendor, product, serial, cstr "Keyboard", cstr "Mouse", cstr "Serial"]

/-- Conversion of a `char` (given by its byte value) to `uint16_t`: zero
extension where `char` is unsigned, sign extension where it is signed. -/
def charToU16 (charSigned : Bool) (c : Nat) : Nat :=
  if charSigned && decide (128 ≤ c % 256) then 0xFF00 + c % 256 else c % 256

/-- The `for` loop that widens the first `str_len` characters into
`buffer[1 ..]`. -/
def widenLoop (charSigned : Bool) (str : List Nat) (str_len : Nat) (buffer : List Nat) :
    List Nat :=
  (List.range str_len).foldl (fun b i => b.set (i + 1) (charToU16 charSigned (str.getD i 0)))
    buffer

/-- `tud_descriptor_string_cb`. `buffer` is the content of the static 32-unit
array before the call; the result is `none` for `NULL` and otherwise the
content of that array when the call returns its address. -/
def tud_descriptor_string_cb (charSigned : Bool) (table : List (List Nat))
    (buffer : List Nat) (index : Nat) : Option (List Nat) :=
  if index ≥ table.length then none
  else
    let (buffer1, str_len) :=
      if index = 0 then (buffer.set 1 0x0409, 1)
      else
        let str := table.getD index []
        let str_len := str.length % 256
        let str_len := if str_len > 31 then 31 else str_len
        (widenLoop charSigned str str_len buffer, str_len)
    some (buffer1.set 0 (((TUSB_DESC_STRING <<< 8) ||| ((str_len + 1) * 2)) % 2 ^ 16))

/-! ## Startup (`src/main.cc`) -/

/-- Status codes returned by the init and start steps. -/
inductive Status
  | OK
  | ERROR
  deriving DecidableEq, Repr

/-- The collaborators `main` calls, acting on the rest of the system `W`; the
last field tells whether `vTaskStartScheduler` ever returns. -/
structure BootEnv (W : Type) where
  InitializeStorage : W → Status × W
  RunnerInit : W → Status × W
  RunnerStart : W → Status × W
  schedulerReturns : W → Bool

/-- What `main` does, in program order. -/
inductive BootCall
  | InitializeStorage
  | RunnerInit
  | RunnerStart
  | vTaskStartScheduler
  | spin
  deriving DecidableEq, Repr

/-- The function `main`: the calls it makes, ending in the idle spin loop when it
reaches it. The `&&` chain evaluates left to right and stops at the first step
that does not return `OK`. -/
def main {W : Type} (env : BootEnv W) (w : W) : List BootCall :=
  let (st1, w1) := env.InitializeStorage w
  if st1 = Status.OK then
    let (st2, w2) := env.RunnerInit w1
    if st2 = Status.OK then
      let (st3, w3) := env.RunnerStart w2
      if st3 = Status.OK then
        [BootCall.InitializeStorage, BootCall.RunnerInit, BootCall.RunnerStart,
          BootCall.vTaskStartScheduler] ++
          (if env.schedulerReturns w3 then [BootCall.spin] else [])
      else
        [BootCall.InitializeStorage, BootCall.RunnerInit, BootCall.RunnerStart, BootCall.spin]
    else [BootCall.InitializeStorage, BootCall.RunnerInit, BootCall.spin]
  else [BootCall.InitializeStorage, BootCall.spin]

/-- A boot environment over a counter of calls made, in which storage and the
runner initialise but the runner fails to start. -/
def startFailsEnv : BootEnv Nat where
  InitializeStorage := fun n => (Status.OK, n + 1)
  RunnerInit := fun n => (Status.OK, n + 1)
  RunnerStart := fun n => (Status.ERROR, n + 1)
  schedulerReturns := fun _ => false

/-- A product name of 256 characters `A`. -/
def longProductName : List Nat := List.replicate 256 65

/-! ## Basic facts about the operations -/

theorem otherIdx_ne (i : Fin 2) : otherIdx i ≠ i := by
  revert i; decide

theorem otherIdx_otherIdx (i : Fin 2) : otherIdx (otherIdx i) = i := by
  revert i; decide

theorem setSlot_same (db : Fin 2 → Frame) (i : Fin 2) (f : Frame) : setSlot db i f i = f := by
  simp [setSlot]

theorem setSlot_other (db : Fin 2 → Frame) (i j : Fin 2) (f : Frame) (h : j ≠ i) :
    setSlot db i f j = db j := by
  simp [setSlot, h]

/-- The members `OutputTick` never writes. -/
theorem OutputTick_frame (i2c : List Nat → Int) (t : Nat) (s : SSD1306Display) :
    (OutputTick i2c t s).state.buffer_idx_ = s.buffer_idx_ ∧
    (OutputTick i2c t s).state.double_buffer_ = s.double_buffer_ ∧
    (OutputTick i2c t s).state.display_buffer_ = s.display_buffer_ ∧
    (OutputTick i2c t s).state.buffer_changed_ = s.buffer_changed_ ∧
    (OutputTick i2c t s).state.sleep_s_ = s.sleep_s_ := by
  unfold OutputTick lockedSection
  by_cases h1 : s.send_buffer_ = true <;> by_cases h2 : s.sleep_ = true <;>
    by_cases h3 : sub32 (seconds32 t) (seconds32 t) ≥ s.sleep_s_ <;>
    by_cases h4 : sub32 (seconds32 t) s.last_active_s_ ≥ s.sleep_s_ <;>
    simp [h1, h2, h3, h4]

/-- A library call leaves every member but the slot drawn into as it was. -/
theorem draw_fields (g : Frame → Frame) (s : SSD1306Display) :
    (draw g s).buffer_idx_ = s.buffer_idx_ ∧
    (draw g s).display_buffer_ = s.display_buffer_ ∧
    (draw g s).buffer_changed_ = s.buffer_changed_ ∧
    (draw g s).send_buffer_ = s.send_buffer_ := by
  simp [draw]

theorem drawTextLoop_fields (r : Renderer) (font_buf : List Nat) (width row col : Nat)
    (mode : Mode) (text : List Char) :
    ∀ (off : Nat) (s : SSD1306Display),
      (drawTextLoop r font_buf width row col mode text off s).buffer_idx_ = s.buffer_idx_ ∧
      (drawTextLoop r font_buf width row col mode text off s).display_buffer_
        = s.display_buffer_ := by
  induction text with
  | nil => intro off s; simp [drawTextLoop]
  | cons c cs ih =>
    intro off s
    simp only [drawTextLoop]
    obtain ⟨h1, h2⟩ := ih ((off + width) % 2 ^ 32)
      (draw (fun f => r.drawChar f font_buf c ((col + off) % 2 ^ 32) row mode) s)
    rw [h1, h2]
    simp [draw]

theorem DrawRect_fields (r : Renderer) (r0 c0 r1 c1 : Nat) (fill : Bool) (mode : Mode)
    (s : SSD1306Display) :
    (DrawRect r r0 c0 r1 c1 fill mode s).buffer_idx_ = s.buffer_idx_ ∧
    (DrawRect r r0 c0 r1 c1 fill mode s).display_buffer_ = s.display_buffer_ ∧
    (DrawRect r r0 c0 r1 c1 fill mode s).buffer_changed_ = true := by
  cases fill <;> simp [DrawRect, draw]

theorem changeActiveLayersLoop_fields (r : Renderer) (layers : List Bool) :
    ∀ (fuel i : Nat) (s : SSD1306Display),
      (changeActiveLayersLoop r layers fuel i s).buffer_idx_ = s.buffer_idx_ ∧
      (changeActiveLayersLoop r layers fuel i s).display_buffer_ = s.display_buffer_ ∧
      (s.buffer_changed_ = true →
        (changeActiveLayersLoop r layers fuel i s).buffer_changed_ = true) := by
  intro fuel
  induction fuel with
  | zero => intro i s; simp [changeActiveLayersLoop]
  | succ n ih =>
    intro i s
    simp only [changeActiveLayersLoop]
    split
    · obtain ⟨h1, h2, h3⟩ := ih (i + 1)
        (DrawRect r 1 (i * 8 + 1) 7 (i * 8 + 7) true
          (if layers.getD i false then Mode.ADD else Mode.SUBTRACT) s)
      obtain ⟨d1, d2, d3⟩ := DrawRect_fields r 1 (i * 8 + 1) 7 (i * 8 + 7) true
          (if layers.getD i false then Mode.ADD else Mode.SUBTRACT) s
      exact ⟨h1.trans d1, h2.trans d2, fun _ => h3 d3⟩
    · exact ⟨rfl, rfl, id⟩

theorem ChangeActiveLayers_changed (r : Renderer) (layers : List Bool) (s : SSD1306Display)
    (h : layers.isEmpty = false) : (ChangeActiveLayers r layers s).buffer_changed_ = true := by
  have hlen : 0 < layers.length := by
    cases layers with
    | nil => simp at h
    | cons a l => simp
  unfold ChangeActiveLayers
  simp only [changeActiveLayersLoop]
  rw [if_pos ⟨hlen, by decide⟩]
  exact (changeActiveLayersLoop_fields r layers 15 1 _).2.2
    (DrawRect_fields r 1 _ 7 _ true _ s).2.2

theorem step_TargetIsPending (r : Renderer) (i2c : List Nat → Int) (s : SSD1306Display)
    (op : Op) (h : TargetIsPending s) : TargetIsPending (step r i2c s op) := by
  unfold TargetIsPending at *
  cases op with
  | startOfInputTick => simpa [step, StartOfInputTick] using h
  | finalizeInputTickOutput =>
    simp only [step, FinalizeInputTickOutput]
    split
    · simp [otherIdx_otherIdx]
    · exact h
  | outputTick t =>
    obtain ⟨h1, _, h3, _, _⟩ := OutputTick_frame i2c t s
    simp only [step]
    rw [h1, h3]; exact h
  | setPixel row col mode => simpa [step, SetPixel, draw] using h
  | drawLine r0 c0 r1 c1 mode => simpa [step, DrawLine, draw] using h
  | drawRect r0 c0 r1 c1 fill mode =>
    obtain ⟨h1, h2, _⟩ := DrawRect_fields r r0 c0 r1 c1 fill mode s
    simp only [step]; rw [h1, h2]; exact h
  | drawText row col text font mode =>
    cases font <;>
      simp only [step, DrawText, DrawTextCustom] <;>
      rw [(drawTextLoop_fields r _ _ row col mode text 0 s).1,
        (drawTextLoop_fields r _ _ row col mode text 0 s).2] <;> exact h
  | drawTextCustom row col text font_buf mode =>
    simp only [step, DrawTextCustom]
    rw [(drawTextLoop_fields r _ _ row col mode text 0 s).1,
      (drawTextLoop_fields r _ _ row col mode text 0 s).2]
    exact h
  | changeActiveLayers layers =>
    obtain ⟨h1, h2, _⟩ := changeActiveLayersLoop_fields r layers 16 0 s
    simp only [step, ChangeActiveLayers]; rw [h1, h2]; exact h

theorem run_TargetIsPending (r : Renderer) (i2c : List Nat → Int) (ops : List Op) :
    ∀ s : SSD1306Display, TargetIsPending s → TargetIsPending (run r i2c s ops) := by
  induction ops with
  | nil => intro s h; exact h
  | cons op ops ih =>
    intro s h
    exact ih (step r i2c s op) (step_TargetIsPending r i2c s op h)

theorem construct_TargetIsPending (num_rows sleep_s time_us : Nat) :
    TargetIsPending (SSD1306Display.construct num_rows sleep_s time_us) := by
  simp [TargetIsPending, SSD1306Display.construct, otherIdx]

/-- A mutator leaves the dirty marker set. -/
theorem step_mutator_changed (r : Renderer) (i2c : List Nat → Int) (s : SSD1306Display)
    (op : Op) (h : op.isMutator = true) : (step r i2c s op).buffer_changed_ = true := by
  cases op with
  | startOfInputTick => simp [Op.isMutator] at h
  | finalizeInputTickOutput => simp [Op.isMutator] at h
  | outputTick t => simp [Op.isMutator] at h
  | setPixel row col mode => simp [step, SetPixel]
  | drawLine r0 c0 r1 c1 mode => simp [step, DrawLine]
  | drawRect r0 c0 r1 c1 fill mode => exact (DrawRect_fields r r0 c0 r1 c1 fill mode s).2.2
  | drawText row col text font mode => cases font <;> simp [step, DrawText, DrawTextCustom]
  | drawTextCustom row col text font_buf mode => simp [step, DrawTextCustom]
  | changeActiveLayers layers =>
    simp only [Op.isMutator, Bool.not_eq_true'] at h
    exact ChangeActiveLayers_changed r layers s h

/-- Only `StartOfInputTick` clears the dirty marker. -/
theorem step_keeps_changed (r : Renderer) (i2c : List Nat → Int) (s : SSD1306Display)
    (op : Op) (hop : op.isStart = false) (h : s.buffer_changed_ = true) :
    (step r i2c s op).buffer_changed_ = true := by
  cases op with
  | startOfInputTick => simp [Op.isStart] at hop
  | finalizeInputTickOutput =>
    simp only [step, FinalizeInputTickOutput]
    split <;> simp [h]
  | outputTick t =>
    simp only [step]
    rw [(OutputTick_frame i2c t s).2.2.2.1]; exact h
  | setPixel row col mode => simp [step, SetPixel]
  | drawLine r0 c0 r1 c1 mode => simp [step, DrawLine]
  | drawRect r0 c0 r1 c1 fill mode => exact (DrawRect_fields r r0 c0 r1 c1 fill mode s).2.2
  | drawText row col text font mode => cases font <;> simp [step, DrawText, DrawTextCustom]
  | drawTextCustom row col text font_buf mode => simp [step, DrawTextCustom]
  | changeActiveLayers layers =>
    exact (changeActiveLayersLoop_fields r layers 16 0 s).2.2 h

theorem run_keeps_changed (r : Renderer) (i2c : List Nat → Int) (ops : List Op) :
    ∀ s : SSD1306Display, (∀ op ∈ ops, op.isStart = false) → s.buffer_changed_ = true →
      (run r i2c s ops).buffer_changed_ = true := by
  induction ops with
  | nil => intro s _ h; exact h
  | cons op ops ih =>
    intro s hops h
    exact ih (step r i2c s op) (fun o ho => hops o (List.mem_cons_of_mem _ ho))
      (step_keeps_changed r i2c s op (hops op (List.mem_cons_self _ _)) h)

theorem run_append (r : Renderer) (i2c : List Nat → Int) (s : SSD1306Display)
    (xs ys : List Op) : run r i2c s (xs ++ ys) = run r i2c (run r i2c s xs) ys := by
  simp [run, List.foldl_append]

/-- What `FinalizeInputTickOutput` does to a dirty state whose library target is
the non-active slot. -/
theorem finalize_dirty (s : SSD1306Display) (hc : s.buffer_changed_ = true) :
    (FinalizeInputTickOutput s).buffer_idx_ = otherIdx s.buffer_idx_ ∧
    (FinalizeInputTickOutput s).send_buffer_ = true ∧
    (FinalizeInputTickOutput s).display_buffer_ = s.buffer_idx_ ∧
    (FinalizeInputTickOutput s).double_buffer_ (otherIdx s.buffer_idx_)
      = s.double_buffer_ (otherIdx s.buffer_idx_) ∧
    (FinalizeInputTickOutput s).double_buffer_ s.buffer_idx_
      = s.double_buffer_ (otherIdx s.buffer_idx_) := by
  simp [FinalizeInputTickOutput, hc, setSlot, otherIdx_ne]

theorem seconds32_lt (t : Nat) : seconds32 t < 2 ^ 32 :=
  Nat.mod_lt _ (by decide)

theorem sub32_self (a : Nat) : sub32 a a = 0 := by
  unfold sub32
  have h : a % 2 ^ 32 < 2 ^ 32 := Nat.mod_lt _ (by decide)
  have e : a % 2 ^ 32 + (2 ^ 32 - a % 2 ^ 32) = 2 ^ 32 := by omega
  rw [e]; rfl

theorem sub32_of_le (a b : Nat) (ha : a < 2 ^ 32) (hba : b ≤ a) : sub32 a b = a - b := by
  unfold sub32
  have hb : b < 2 ^ 32 := by omega
  rw [Nat.mod_eq_of_lt ha, Nat.mod_eq_of_lt hb]
  have e : a + (2 ^ 32 - b) = (a - b) + 2 ^ 32 := by omega
  rw [e, Nat.add_mod_right]
  exact Nat.mod_eq_of_lt (by omega)

/-- `OutputTick` on a state whose new-data flag is clear, when the sleep test
succeeds: the panel is switched off and nothing else is written. -/
theorem OutputTick_clear_sleeps (i2c : List Nat → Int) (t : Nat) (s : SSD1306Display)
    (hflag : s.send_buffer_ = false) (hawake : s.sleep_ = false)
    (hidle : sub32 (seconds32 t) s.last_active_s_ ≥ s.sleep_s_) :
    (OutputTick i2c t s).state = { s with sleep_ := true } ∧
    (OutputTick i2c t s).trace =
      [Event.take, Event.storeSendBuffer false, Event.give, CMD i2c SSD1306_DISPLAY_OFF] := by
  cases s
  simp only at hflag hawake hidle
  subst hflag hawake
  simp [OutputTick, lockedSection, hidle]

/-- `OutputTick` on a state whose new-data flag is clear, when the sleep test
fails: only the locked block runs. -/
theorem OutputTick_clear_idle (i2c : List Nat → Int) (t : Nat) (s : SSD1306Display)
    (hflag : s.send_buffer_ = false)
    (hno : ¬ (s.sleep_ = false ∧ sub32 (seconds32 t) s.last_active_s_ ≥ s.sleep_s_)) :
    (OutputTick i2c t s).state = s ∧
    (OutputTick i2c t s).trace = [Event.take, Event.storeSendBuffer false, Event.give] := by
  obtain ⟨num_rows_, sleep_s_, buffer_idx_, buffer_changed_, send_buffer_, last_active_s_,
    sleep_, double_buffer_, display_buffer_⟩ := s
  simp only at hflag hno
  subst hflag
  have hno2 : ¬ (sleep_ = false ∧ sleep_s_ ≤ sub32 (seconds32 t) last_active_s_) := hno
  simp [OutputTick, lockedSection, hno2]

/-- `OutputTick` on a state with new data and a threshold of at least one
second: the frame is sent, after a panel-on command when the panel was off. -/
theorem OutputTick_send (i2c : List Nat → Int) (t : Nat) (s : SSD1306Display)
    (hflag : s.send_buffer_ = true) (hgo : s.sleep_ = true ∨ 1 ≤ s.sleep_s_) :
    (OutputTick i2c t s).state =
      { s with send_buffer_ := false, last_active_s_ := seconds32 t, sleep_ := false } ∧
    (OutputTick i2c t s).trace =
      [Event.take, Event.copy s.buffer_idx_, Event.storeLastActive (seconds32 t),
        Event.storeSendBuffer false, Event.give] ++
      (if s.sleep_ then [CMD i2c SSD1306_DISPLAY_ON] else []) ++
      [CMD i2c SSD1306_PAGEADDR, CMD i2c 0x00, CMD i2c 0x07,
        CMD i2c SSD1306_COLUMNADDR, CMD i2c 0x00, CMD i2c 127,
        Event.i2cWrite (localCopy s) (i2c (localCopy s))] := by
  obtain ⟨num_rows_, sleep_s_, buffer_idx_, buffer_changed_, send_buffer_, last_active_s_,
    sleep_, double_buffer_, display_buffer_⟩ := s
  simp only at hflag hgo
  subst hflag
  cases sleep_
  · have h0 : ¬ (sleep_s_ = 0) := by
      rcases hgo with h | h
      · simp at h
      · omega
    simp [OutputTick, lockedSection, sub32_self, h0, localCopy]
  · simp [OutputTick, lockedSection, sub32_self, localCopy]

/-- `OutputTick` on a state with new data, a zero threshold and the panel on:
the call returns after the panel-off command, before the block transfer. -/
theorem OutputTick_zero_threshold (i2c : List Nat → Int) (t : Nat) (s : SSD1306Display)
    (hflag : s.send_buffer_ = true) (hthr : s.sleep_s_ = 0) (hawake : s.sleep_ = false) :
    (OutputTick i2c t s).state =
      { s with send_buffer_ := false, last_active_s_ := seconds32 t, sleep_ := true } ∧
    (OutputTick i2c t s).trace =
      [Event.take, Event.copy s.buffer_idx_, Event.storeLastActive (seconds32 t),
        Event.storeSendBuffer false, Event.give, CMD i2c SSD1306_DISPLAY_OFF] := by
  obtain ⟨num_rows_, sleep_s_, buffer_idx_, buffer_changed_, send_buffer_, last_active_s_,
    sleep_, double_buffer_, display_buffer_⟩ := s
  simp only at hflag hthr hawake
  subst hflag hthr hawake
  simp [OutputTick, lockedSection]

/-- The four shapes of the trace of `OutputTick`. -/
theorem OutputTick_trace_cases (i2c : List Nat → Int) (t : Nat) (s : SSD1306Display) :
    ∃ inner rest,
      (OutputTick i2c t s).trace = Event.take :: (inner ++ Event.give :: rest) ∧
      (inner = [Event.storeSendBuffer false] ∨
        inner = [Event.copy s.buffer_idx_, Event.storeLastActive (seconds32 t),
          Event.storeSendBuffer false]) ∧
      (∀ e ∈ rest, ∃ d, e = Event.i2cWrite d (i2c d)) := by
  by_cases hflag : s.send_buffer_ = true
  · by_cases hgo : s.sleep_ = true ∨ 1 ≤ s.sleep_s_
    · refine ⟨_, (if s.sleep_ then [CMD i2c SSD1306_DISPLAY_ON] else []) ++
          [CMD i2c SSD1306_PAGEADDR, CMD i2c 0x00, CMD i2c 0x07,
            CMD i2c SSD1306_COLUMNADDR, CMD i2c 0x00, CMD i2c 127,
            Event.i2cWrite (localCopy s) (i2c (localCopy s))], ?_, Or.inr rfl, ?_⟩
      · rw [(OutputTick_send i2c t s hflag hgo).2]
        simp only [List.cons_append, List.nil_append, List.append_assoc]
      · intro e he
        simp only [List.mem_append, List.mem_cons, List.mem_singleton] at he
        rcases he with he | he
        · split at he
          · simp only [List.mem_singleton] at he
            exact ⟨_, he⟩
          · simp at he
        · rcases he with he | he | he | he | he | he | he
          · exact ⟨_, he⟩
          · exact ⟨_, he⟩
          · exact ⟨_, he⟩
          · exact ⟨_, he⟩
          · exact ⟨_, he⟩
          · exact ⟨_, he⟩
          · rcases he with he | he
            · exact ⟨localCopy s, he⟩
            · simp at he
    · have hawake : s.sleep_ = false := by
        cases h : s.sleep_
        · rfl
        · exact absurd (Or.inl h) hgo
      have h0 : s.sleep_s_ = 0 := by
        have : ¬ (1 ≤ s.sleep_s_) := fun h => hgo (Or.inr h)
        omega
      refine ⟨_, [CMD i2c SSD1306_DISPLAY_OFF], ?_, Or.inr rfl, ?_⟩
      · rw [(OutputTick_zero_threshold i2c t s hflag h0 hawake).2]
        rfl
      · intro e he
        simp only [List.mem_singleton] at he
        exact ⟨_, he⟩
  · have hflag2 : s.send_buffer_ = false := by simpa using hflag
    by_cases hsl : s.sleep_ = false ∧ sub32 (seconds32 t) s.last_active_s_ ≥ s.sleep_s_
    · refine ⟨_, [CMD i2c SSD1306_DISPLAY_OFF], ?_, Or.inl rfl, ?_⟩
      · rw [(OutputTick_clear_sleeps i2c t s hflag2 hsl.1 hsl.2).2]
        rfl
      · intro e he
        simp only [List.mem_singleton] at he
        exact ⟨_, he⟩
    · refine ⟨_, [], ?_, Or.inl rfl, ?_⟩
      · rw [(OutputTick_clear_idle i2c t s hflag2 hsl).2]
        rfl
      · intro e he
        simp at he

/-! ## Facts about the string descriptor callback -/

theorem widenLoop_succ (cs : Bool) (str : List Nat) (n : Nat) (buf : List Nat) :
    widenLoop cs str (n + 1) buf
      = (widenLoop cs str n buf).set (n + 1) (charToU16 cs (str.getD n 0)) := by
  simp [widenLoop, List.range_succ, List.foldl_append]

theorem widenLoop_length (cs : Bool) (str : List Nat) (n : Nat) (buf : List Nat) :
    (widenLoop cs str n buf).length = buf.length := by
  induction n with
  | zero => simp [widenLoop]
  | succ n ih => rw [widenLoop_succ, List.length_set, ih]

/-- The loop writes units `1 .. str_len` and leaves every other unit alone. -/
theorem widenLoop_getElem? (cs : Bool) (str : List Nat) (n : Nat) (buf : List Nat) (k : Nat) :
    (widenLoop cs str n buf)[k]? =
      if 1 ≤ k ∧ k ≤ n ∧ k < buf.length then some (charToU16 cs (str.getD (k - 1) 0))
      else buf[k]? := by
  induction n with
  | zero =>
    have h : ¬ (1 ≤ k ∧ k ≤ 0 ∧ k < buf.length) := by omega
    rw [if_neg h]
    simp [widenLoop]
  | succ n ih =>
    rw [widenLoop_succ, List.getElem?_set, widenLoop_length]
    by_cases hk : n + 1 = k
    · subst hk
      by_cases hlen : n + 1 < buf.length
      · simp [hlen]
      · have hnone : buf[n + 1]? = none := List.getElem?_eq_none (by omega)
        simp [hlen, hnone]
    · rw [if_neg hk, ih]
      by_cases hc : 1 ≤ k ∧ k ≤ n ∧ k < buf.length
      · have hc2 : 1 ≤ k ∧ k ≤ n + 1 ∧ k < buf.length := by omega
        rw [if_pos hc, if_pos hc2]
      · have hc2 : ¬ (1 ≤ k ∧ k ≤ n + 1 ∧ k < buf.length) := by omega
        rw [if_neg hc, if_neg hc2]

theorem charToU16_ascii (cs : Bool) (c : Nat) (h : c < 128) : charToU16 cs c = c := by
  unfold charToU16
  have h1 : c % 256 = c := Nat.mod_eq_of_lt (by omega)
  have h2 : ¬ (128 ≤ c) := by omega
  simp [h1, h2]

/-- The header unit for a string of at most 31 characters: descriptor type in
the high byte, length in bytes in the low byte. -/
theorem header_unit (n : Nat) (h : n ≤ 31) :
    ((TUSB_DESC_STRING <<< 8) ||| ((n + 1) * 2)) % 2 ^ 16
      = (TUSB_DESC_STRING <<< 8) ||| (2 * (n + 1)) := by
  unfold TUSB_DESC_STRING
  interval_cases n <;> rfl

/-- The callback on an index of the table other than 0. -/
theorem tud_descriptor_string_cb_pos (cs : Bool) (table : List (List Nat)) (buffer : List Nat)
    (index : Nat) (hi : index < table.length) (h0 : index ≠ 0) :
    tud_descriptor_string_cb cs table buffer index =
      some ((widenLoop cs (table.getD index [])
          (if (table.getD index []).length % 256 > 31 then 31
            else (table.getD index []).length % 256) buffer).set 0
        (((TUSB_DESC_STRING <<< 8) |||
          (((if (table.getD index []).length % 256 > 31 then 31
            else (table.getD index []).length % 256) + 1) * 2)) % 2 ^ 16)) := by
  unfold tud_descriptor_string_cb
  rw [if_neg (by omega)]
  simp only [if_neg h0]

/-! ## The panel renderer meets the `fillRect` contract -/

theorem testBit_255 (j : Nat) (h : j < 8) : Nat.testBit 255 j = true := by
  have e : (255 : Nat) = 2 ^ 8 - 1 := by norm_num
  rw [e, Nat.testBit_two_pow_sub_one]
  simp [h]

/-- Bit `j` of a byte after bit `i` was combined with the mode. -/
theorem combineByte_testBit (mode : Mode) (byte i j : Nat) (hj : j < 8) :
    (mode.combineByte byte (2 ^ i)).testBit j =
      if i = j then mode.combine (byte.testBit j) else byte.testBit j := by
  cases mode
  · simp only [Mode.combineByte, Mode.combine, Nat.testBit_lor, Nat.testBit_two_pow]
    by_cases h : i = j <;> simp [h]
  · simp only [Mode.combineByte, Mode.combine, Nat.testBit_land, Nat.testBit_xor,
      Nat.testBit_two_pow, testBit_255 j hj]
    by_cases h : i = j <;> simp [h]
  · simp only [Mode.combineByte, Mode.combine, Nat.testBit_xor, Nat.testBit_two_pow]
    by_cases h : i = j <;> simp [h]

/-- On the panel, two pixels share byte and bit only if they are the same pixel. -/
theorem pixel_addr_inj (row col y x : Nat) (hcol : col < 128) (hx : x < 128)
    (hb : pixelByte row col = pixelByte y x) (hbit : y % 8 = row % 8) : row = y ∧ col = x := by
  unfold pixelByte at hb
  omega

/-- The pixel written by `panelSetPixel` is combined with the mode; every other
pixel of the panel keeps its value. -/
theorem getPixel_panelSetPixel (f : Frame) (x y : Nat) (mode : Mode) (row col : Nat)
    (hcol : col < 128) (hrow : row < 64) :
    getPixel (panelSetPixel f x y mode) row col =
      if row = y ∧ col = x then mode.combine (getPixel f row col) else getPixel f row col := by
  unfold panelSetPixel
  by_cases hin : x < 128 ∧ y < 64
  · rw [if_pos hin]
    unfold getPixel
    simp only
    rw [List.getD_eq_getElem?_getD, List.getElem?_set]
    by_cases hb : pixelByte y x = pixelByte row col
    · have hlt : pixelByte y x < f.bytes.length := by
        rw [f.size_eq]; unfold pixelByte FRAMEBUFFER_SIZE; omega
      rw [if_pos hb, if_pos hlt, Option.getD_some, combineByte_testBit _ _ _ _
        (Nat.mod_lt _ (by decide)), hb]
      by_cases hbit : y % 8 = row % 8
      · have hsame := pixel_addr_inj row col y x hcol hin.1 hb.symm hbit
        rw [if_pos hbit, if_pos hsame]
      · have hne : ¬ (row = y ∧ col = x) := fun h => hbit (by rw [h.1])
        rw [if_neg hbit, if_neg hne]
    · have hne : ¬ (row = y ∧ col = x) := fun h => hb (by rw [h.1, h.2])
      rw [if_neg hb, if_neg hne, ← List.getD_eq_getElem?_getD]
  · rw [if_neg hin]
    have hne : ¬ (row = y ∧ col = x) := fun h => hin ⟨by omega, by omega⟩
    rw [if_neg hne]

/-- One column of a filled rectangle. -/
theorem getPixel_fill_column (x : Nat) (mode : Mode) (row col : Nat)
    (hcol : col < 128) (hrow : row < 64) (ys : List Nat) (hnd : ys.Nodup) :
    ∀ f : Frame,
      getPixel (ys.foldl (fun h y => panelSetPixel h x y mode) f) row col =
        if col = x ∧ row ∈ ys then mode.combine (getPixel f row col) else getPixel f row col := by
  induction ys with
  | nil => intro f; simp
  | cons y ys ih =>
    intro f
    rw [List.nodup_cons] at hnd
    simp only [List.foldl_cons]
    rw [ih hnd.2, getPixel_panelSetPixel f x y mode row col hcol hrow]
    by_cases hxy : row = y ∧ col = x
    · have hnot : ¬ (col = x ∧ row ∈ ys) := fun h => hnd.1 (hxy.1 ▸ h.2)
      have hyes : col = x ∧ row ∈ y :: ys := ⟨hxy.2, by rw [hxy.1]; exact List.mem_cons_self _ _⟩
      rw [if_neg hnot, if_pos hxy, if_pos hyes]
    · rw [if_neg hxy]
      by_cases hin : col = x ∧ row ∈ ys
      · have hyes : col = x ∧ row ∈ y :: ys := ⟨hin.1, List.mem_cons_of_mem _ hin.2⟩
        rw [if_pos hin, if_pos hyes]
      · have hno : ¬ (col = x ∧ row ∈ y :: ys) := by
          intro h
          rcases List.mem_cons.mp h.2 with h2 | h2
          · exact hxy ⟨h2, h.1⟩
          · exact hin ⟨h.1, h2⟩
        rw [if_neg hin, if_neg hno]

/-- The columns of a filled rectangle, one after the other. -/
theorem getPixel_fill_columns (mode : Mode) (row col : Nat)
    (hcol : col < 128) (hrow : row < 64) (ys : List Nat) (hys : ys.Nodup)
    (xs : List Nat) (hxs : xs.Nodup) :
    ∀ f : Frame,
      getPixel (xs.foldl (fun g x => ys.foldl (fun h y => panelSetPixel h x y mode) g) f)
          row col =
        if col ∈ xs ∧ row ∈ ys then mode.combine (getPixel f row col) else getPixel f row col := by
  induction xs with
  | nil => intro f; simp
  | cons x xs ih =>
    intro f
    rw [List.nodup_cons] at hxs
    simp only [List.foldl_cons]
    rw [ih hxs.2, getPixel_fill_column x mode row col hcol hrow ys hys f]
    by_cases hx : col = x ∧ row ∈ ys
    · have hnot : ¬ (col ∈ xs ∧ row ∈ ys) := fun h => hxs.1 (hx.1 ▸ h.1)
      have hyes : col ∈ x :: xs ∧ row ∈ ys := ⟨by rw [hx.1]; exact List.mem_cons_self _ _, hx.2⟩
      rw [if_neg hnot, if_pos hx, if_pos hyes]
    · rw [if_neg hx]
      by_cases hin : col ∈ xs ∧ row ∈ ys
      · have hyes : col ∈ x :: xs ∧ row ∈ ys := ⟨List.mem_cons_of_mem _ hin.1, hin.2⟩
        rw [if_pos hin, if_pos hyes]
      · have hno : ¬ (col ∈ x :: xs ∧ row ∈ ys) := by
          intro h
          rcases List.mem_cons.mp h.1 with h1 | h1
          · exact hx ⟨h1, h.2⟩
          · exact hin ⟨h1, h.2⟩
        rw [if_neg hin, if_neg hno]

theorem mem_range'_incl (a b m : Nat) : m ∈ List.range' a (b + 1 - a) ↔ a ≤ m ∧ m ≤ b := by
  rw [List.mem_range'_1]
  omega

/-- The panel renderer fills rectangles as the contract of `fillRect` asks. -/
theorem panelFillRect_contract : FillRectContract getPixel 64 panelFillRect := by
  intro f x_start y_start x_end y_end mode row col _ _ hcol hrow
  unfold panelFillRect
  rw [getPixel_fill_columns mode row col (by unfold PANEL_COLS at hcol; exact hcol) hrow _
    (List.nodup_range' _ _) _ (List.nodup_range' _ _) f]
  by_cases h : x_start ≤ col ∧ col ≤ x_end ∧ y_start ≤ row ∧ row ≤ y_end
  · have h2 : col ∈ List.range' x_start (x_end + 1 - x_start) ∧
        row ∈ List.range' y_start (y_end + 1 - y_start) :=
      ⟨(mem_range'_incl _ _ _).mpr ⟨h.1, h.2.1⟩, (mem_range'_incl _ _ _).mpr h.2.2⟩
    rw [if_pos h, if_pos h2]
  · have h2 : ¬ (col ∈ List.range' x_start (x_end + 1 - x_start) ∧
        row ∈ List.range' y_start (y_end + 1 - y_start)) := by
      intro h3
      have a := (mem_range'_incl _ _ _).mp h3.1
      have b := (mem_range'_incl _ _ _).mp h3.2
      exact h ⟨a.1, a.2, b.1, b.2⟩
    rw [if_neg h, if_neg h2]

/-! ## `ChangeActiveLayers` -/

/-- The loop of `ChangeActiveLayers` from index `i`, with enough fuel to reach
index 16, draws the indicators `i, i + 1, ...` below `min (length, 16)` in order. -/
theorem changeActiveLayersLoop_eq_foldl (r : Renderer) (layers : List Bool) :
    ∀ (fuel i : Nat) (s : SSD1306Display), 16 ≤ i + fuel →
      changeActiveLayersLoop r layers fuel i s =
        (List.range' i (min layers.length 16 - i)).foldl
          (fun st j => DrawRect r 1 (j * 8 + 1) 7 (j * 8 + 7) true
            (if layers.getD j false then Mode.ADD else Mode.SUBTRACT) st) s := by
  intro fuel
  induction fuel with
  | zero =>
    intro i s h
    have e : min layers.length 16 - i = 0 := by omega
    simp [changeActiveLayersLoop, e]
  | succ n ih =>
    intro i s h
    simp only [changeActiveLayersLoop]
    by_cases hc : i < layers.length ∧ i < 16
    · have e : min layers.length 16 - i = (min layers.length 16 - (i + 1)) + 1 := by omega
      rw [if_pos hc, ih (i + 1) _ (by omega), e, List.range'_succ, List.foldl_cons]
    · have e : min layers.length 16 - i = 0 := by omega
      rw [if_neg hc, e]
      rfl

/-- The frame `DrawRect` with `fill` leaves in the slot drawn into, and what it
leaves alone. -/
theorem DrawRect_fill_frame (r : Renderer) (r0 c0 r1 c1 : Nat) (mode : Mode)
    (s : SSD1306Display) :
    (DrawRect r r0 c0 r1 c1 true mode s).double_buffer_ s.display_buffer_
      = r.fillRect (s.double_buffer_ s.display_buffer_) c0 r0 c1 r1 mode ∧
    (∀ j, j ≠ s.display_buffer_ →
      (DrawRect r r0 c0 r1 c1 true mode s).double_buffer_ j = s.double_buffer_ j) ∧
    (DrawRect r r0 c0 r1 c1 true mode s).display_buffer_ = s.display_buffer_ := by
  refine ⟨by simp [DrawRect, draw, setSlot], ?_, by simp [DrawRect, draw]⟩
  intro j hj
  simp [DrawRect, draw, setSlot, hj]

/-- State after the indicators `0 .. n - 1` have been drawn. -/
theorem highlight_prefix (r : Renderer) (pixel : Frame → Nat → Nat → Bool) (rows : Nat)
    (hrows : 8 ≤ rows) (hfill : FillRectContract pixel rows r.fillRect)
    (layers : List Bool) (s : SSD1306Display) (n : Nat) (hn : n ≤ 16) :
    let st := (List.range n).foldl
      (fun st j => DrawRect r 1 (j * 8 + 1) 7 (j * 8 + 7) true
        (if layers.getD j false then Mode.ADD else Mode.SUBTRACT) st) s
    st.display_buffer_ = s.display_buffer_ ∧
    (∀ j, j ≠ s.display_buffer_ → st.double_buffer_ j = s.double_buffer_ j) ∧
    (∀ row col, col < PANEL_COLS → row < rows →
      pixel (st.double_buffer_ s.display_buffer_) row col =
        if col / 8 < n ∧ inIndicator (col / 8) row col then layers.getD (col / 8) false
        else pixel (s.double_buffer_ s.display_buffer_) row col) := by
  induction n with
  | zero =>
    intro st
    refine ⟨rfl, fun _ _ => rfl, ?_⟩
    intro row col _ _
    have h : ¬ (col / 8 < 0 ∧ inIndicator (col / 8) row col) := by omega
    rw [if_neg h]
    rfl
  | succ n ih =>
    intro st
    obtain ⟨ih1, ih2, ih3⟩ := ih (by omega)
    have hst : st = DrawRect r 1 (n * 8 + 1) 7 (n * 8 + 7) true
        (if layers.getD n false then Mode.ADD else Mode.SUBTRACT)
        ((List.range n).foldl
          (fun st j => DrawRect r 1 (j * 8 + 1) 7 (j * 8 + 7) true
            (if layers.getD j false then Mode.ADD else Mode.SUBTRACT) st) s) := by
      show (List.range (n + 1)).foldl _ s = _
      rw [List.range_succ, List.foldl_append]
      rfl
    obtain ⟨d1, d2, d3⟩ := DrawRect_fill_frame r 1 (n * 8 + 1) 7 (n * 8 + 7)
      (if layers.getD n false then Mode.ADD else Mode.SUBTRACT)
      ((List.range n).foldl
        (fun st j => DrawRect r 1 (j * 8 + 1) 7 (j * 8 + 7) true
          (if layers.getD j false then Mode.ADD else Mode.SUBTRACT) st) s)
    rw [ih1] at d1 d2 d3
    refine ⟨by rw [hst]; exact d3, ?_, ?_⟩
    · intro j hj
      rw [hst, d2 j hj]
      exact ih2 j hj
    · intro row col hcol hrow
      rw [hst, d1, hfill _ _ _ _ _ _ row col (by unfold PANEL_COLS; omega) (by omega) hcol hrow,
        ih3 row col hcol hrow]
      by_cases hrect : n * 8 + 1 ≤ col ∧ col ≤ n * 8 + 7 ∧ 1 ≤ row ∧ row ≤ 7
      · have hq : col / 8 = n := by omega
        have hyes : col / 8 < n + 1 ∧ inIndicator (col / 8) row col := by
          unfold inIndicator; omega
        rw [if_pos hrect, if_pos hyes, hq]
        cases layers.getD n false <;> rfl
      · rw [if_neg hrect]
        by_cases hprev : col / 8 < n ∧ inIndicator (col / 8) row col
        · have hyes : col / 8 < n + 1 ∧ inIndicator (col / 8) row col := ⟨by omega, hprev.2⟩
          rw [if_pos hprev, if_pos hyes]
        · have hno : ¬ (col / 8 < n + 1 ∧ inIndicator (col / 8) row col) := by
            unfold inIndicator at hprev ⊢
            omega
          rw [if_neg hprev, if_neg hno]

/-! ## Interleaved execution: the invariant and the sequential runs -/

/-- One more byte copied extends the agreeing prefix by one. -/
theorem prefixEq_copyByte (dst src : Frame) (k : Nat) (hk : k < FRAMEBUFFER_SIZE)
    (h : prefixEq k dst src) : prefixEq (k + 1) (dst.copyByte src k) src := by
  intro j hj
  show (dst.bytes.set k (src.bytes.getD k 0))[j]? = src.bytes[j]?
  rw [List.getElem?_set]
  by_cases hjk : k = j
  · subst hjk
    have h1 : k < dst.bytes.length := by rw [dst.size_eq]; exact hk
    have h2 : k < src.bytes.length := by rw [src.size_eq]; exact hk
    rw [if_pos rfl, if_pos h1, List.getD_eq_getElem _ _ h2, List.getElem?_eq_getElem h2]
  · rw [if_neg hjk]
    exact h j (by omega)

theorem prefixEq_zero (f g : Frame) : prefixEq 0 f g := by
  intro j hj
  omega

theorem ne_otherIdx (i : Fin 2) : i ≠ otherIdx i := by
  revert i; decide

/-- Frames that agree on all their bytes are equal. -/
theorem eq_of_prefixEq (f g : Frame) (k : Nat) (hk : FRAMEBUFFER_SIZE ≤ k)
    (h : prefixEq k f g) : f = g := by
  have hb : f.bytes = g.bytes := by
    apply List.ext_getElem?
    intro j
    by_cases hj : j < k
    · exact h j hj
    · have h1 : f.bytes.length ≤ j := by rw [f.size_eq]; omega
      have h2 : g.bytes.length ≤ j := by rw [g.size_eq]; omega
      rw [List.getElem?_eq_none h1, List.getElem?_eq_none h2]
  cases f; cases g; cases hb; rfl

theorem runSchedule_cons (σ : Sys) (act : Action) (sched : List Action) :
    runSchedule σ (act :: sched) = runSchedule (concStep σ act) sched := rfl

theorem runSchedule_append (σ : Sys) (xs ys : List Action) :
    runSchedule σ (xs ++ ys) = runSchedule (runSchedule σ xs) ys := by
  simp [runSchedule, List.foldl_append]

/-- The copy loop of the consumer, run without interruption from byte `k` on. -/
theorem consumer_copy_loop (n : Nat) :
    ∀ (σ : Sys) (k : Nat), σ.cpc = ConsumerPc.copy k → k + n = FRAMEBUFFER_SIZE →
      prefixEq k σ.local_copy (σ.dev.double_buffer_ σ.dev.buffer_idx_) →
      ∃ f, runSchedule σ (List.replicate n Action.consumer) =
          { σ with cpc := ConsumerPc.copy FRAMEBUFFER_SIZE, local_copy := f } ∧
        prefixEq FRAMEBUFFER_SIZE f (σ.dev.double_buffer_ σ.dev.buffer_idx_) := by
  induction n with
  | zero =>
    intro σ k hc hk hp
    have hk2 : k = FRAMEBUFFER_SIZE := by omega
    subst hk2
    refine ⟨σ.local_copy, ?_, hp⟩
    obtain ⟨dev, lock, ppc, cpc, buf_idx, local_copy, send_buffer, curr_s⟩ := σ
    simp only at hc
    subst hc
    rfl
  | succ n ih =>
    intro σ k hc hk hp
    have hlt : k < FRAMEBUFFER_SIZE := by omega
    obtain ⟨dev, lock, ppc, cpc, buf_idx, local_copy, send_buffer, curr_s⟩ := σ
    simp only at hc hp
    subst hc
    rw [List.replicate_succ, runSchedule_cons]
    have hstep : concStep ⟨dev, lock, ppc, ConsumerPc.copy k, buf_idx, local_copy, send_buffer,
        curr_s⟩ Action.consumer =
        ⟨dev, lock, ppc, ConsumerPc.copy (k + 1), buf_idx,
          local_copy.copyByte (dev.double_buffer_ dev.buffer_idx_) k, send_buffer, curr_s⟩ := by
      simp [concStep, consumerStep, hlt]
    rw [hstep]
    obtain ⟨f, hf, hpf⟩ := ih ⟨dev, lock, ppc, ConsumerPc.copy (k + 1), buf_idx,
          local_copy.copyByte (dev.double_buffer_ dev.buffer_idx_) k, send_buffer, curr_s⟩
      (k + 1) rfl (by omega) (prefixEq_copyByte _ _ _ hlt hp)
    exact ⟨f, hf, hpf⟩

theorem setSlot_setSlot (db : Fin 2 → Frame) (i : Fin 2) (f g : Frame) :
    setSlot (setSlot db i f) i g = setSlot db i g := by
  funext j
  by_cases h : j = i <;> simp [setSlot, h]

/-- A task that has returned takes no further step. -/
theorem consumer_done_stutters (n : Nat) (σ : Sys) (h : σ.cpc = ConsumerPc.done) :
    runSchedule σ (List.replicate n Action.consumer) = σ := by
  induction n with
  | zero => rfl
  | succ n ih =>
    rw [List.replicate_succ, runSchedule_cons]
    have hstep : concStep σ Action.consumer = σ := by
      simp [concStep, consumerStep, h]
    rw [hstep, ih]

theorem producer_done_stutters (n : Nat) (σ : Sys) (h : σ.ppc = ProducerPc.done) :
    runSchedule σ (List.replicate n Action.producer) = σ := by
  induction n with
  | zero => rfl
  | succ n ih =>
    rw [List.replicate_succ, runSchedule_cons]
    have hstep : concStep σ Action.producer = σ := by
      simp [concStep, producerStep, h]
    rw [hstep, ih]

/-- The consumer, run alone from the start of `OutputTick` for
`FRAMEBUFFER_SIZE + 7` steps, leaves the members as the locked block of the
sequential `OutputTick` does, and the scratch buffer holding the active slot
when the new-data flag was set. -/
theorem consumer_alone (σ : Sys) (hlock : σ.lock = LockState.free)
    (hc : σ.cpc = ConsumerPc.start) (hsb : σ.send_buffer = false) :
    ∃ f, runSchedule σ (List.replicate (FRAMEBUFFER_SIZE + 7) Action.consumer) =
        { σ with
          dev := (lockedSection σ.curr_s σ.dev).1
          cpc := ConsumerPc.done
          local_copy := f
          send_buffer := (lockedSection σ.curr_s σ.dev).2.1 } ∧
      (σ.dev.send_buffer_ = true → f = σ.dev.double_buffer_ σ.dev.buffer_idx_) := by
  obtain ⟨dev, lock, ppc, cpc, buf_idx, local_copy, send_buffer, curr_s⟩ := σ
  simp only at hlock hc hsb
  subst hlock hc hsb
  have hsplit : List.replicate (FRAMEBUFFER_SIZE + 7) Action.consumer =
      Action.consumer :: Action.consumer ::
        (List.replicate FRAMEBUFFER_SIZE Action.consumer ++
          List.replicate 5 Action.consumer) := by
    rw [← List.replicate_add]
    rfl
  by_cases hflag : dev.send_buffer_ = true
  · obtain ⟨f, hf, hpf⟩ := consumer_copy_loop FRAMEBUFFER_SIZE
      ⟨dev, LockState.heldByConsumer, ppc, ConsumerPc.copy 0, buf_idx, local_copy, false,
        curr_s⟩ 0 rfl (by omega) (prefixEq_zero _ _)
    refine ⟨f, ?_, fun _ => eq_of_prefixEq _ _ _ (Nat.le_refl _) hpf⟩
    rw [hsplit, runSchedule_cons, runSchedule_cons, runSchedule_append]
    have h2 : concStep (concStep ⟨dev, LockState.free, ppc, ConsumerPc.start, buf_idx,
        local_copy, false, curr_s⟩ Action.consumer) Action.consumer =
        ⟨dev, LockState.heldByConsumer, ppc, ConsumerPc.copy 0, buf_idx, local_copy, false,
          curr_s⟩ := by
      simp [concStep, consumerStep, hflag]
    rw [h2, hf]
    simp [runSchedule, concStep, consumerStep, lockedSection, hflag]
  · refine ⟨local_copy, ?_, fun h => absurd h hflag⟩
    have hsplit2 : List.replicate (FRAMEBUFFER_SIZE + 7) Action.consumer =
        List.replicate 4 Action.consumer ++
          List.replicate (FRAMEBUFFER_SIZE + 3) Action.consumer := by
      rw [← List.replicate_add]
      rfl
    rw [hsplit2, runSchedule_append]
    have h4 : runSchedule ⟨dev, LockState.free, ppc, ConsumerPc.start, buf_idx,
        local_copy, false, curr_s⟩ (List.replicate 4 Action.consumer) =
        ⟨{ dev with send_buffer_ := false }, LockState.free, ppc, ConsumerPc.done, buf_idx,
          local_copy, false, curr_s⟩ := by
      simp [runSchedule, concStep, consumerStep, hflag]
    rw [h4, consumer_done_stutters _ _ rfl]
    simp [lockedSection, hflag]

/-- The copy loop of `FinalizeInputTickOutput`, run without interruption from
byte `k` on. -/
theorem producer_copy_loop (n : Nat) :
    ∀ (σ : Sys) (k : Nat), σ.ppc = ProducerPc.finalizeCopy k → k + n = FRAMEBUFFER_SIZE →
      σ.buf_idx ≠ σ.dev.buffer_idx_ →
      prefixEq k (σ.dev.double_buffer_ σ.dev.buffer_idx_) (σ.dev.double_buffer_ σ.buf_idx) →
      ∃ f, runSchedule σ (List.replicate n Action.producer) =
          { σ with
            ppc := ProducerPc.finalizeCopy FRAMEBUFFER_SIZE
            dev := { σ.dev with
              double_buffer_ := setSlot σ.dev.double_buffer_ σ.dev.buffer_idx_ f } } ∧
        prefixEq FRAMEBUFFER_SIZE f (σ.dev.double_buffer_ σ.buf_idx) := by
  induction n with
  | zero =>
    intro σ k hc hk hne hp
    have hk2 : k = FRAMEBUFFER_SIZE := by omega
    subst hk2
    refine ⟨σ.dev.double_buffer_ σ.dev.buffer_idx_, ?_, hp⟩
    obtain ⟨dev, lock, ppc, cpc, buf_idx, local_copy, send_buffer, curr_s⟩ := σ
    simp only at hc
    subst hc
    have hsame : setSlot dev.double_buffer_ dev.buffer_idx_ (dev.double_buffer_ dev.buffer_idx_)
        = dev.double_buffer_ := by
      funext j
      by_cases h : j = dev.buffer_idx_ <;> simp [setSlot, h]
    simp only [runSchedule, List.replicate, List.foldl_nil, hsame]
  | succ n ih =>
    intro σ k hc hk hne hp
    have hlt : k < FRAMEBUFFER_SIZE := by omega
    obtain ⟨dev, lock, ppc, cpc, buf_idx, local_copy, send_buffer, curr_s⟩ := σ
    simp only at hc hp hne
    subst hc
    rw [List.replicate_succ, runSchedule_cons]
    have hstep : concStep ⟨dev, lock, ProducerPc.finalizeCopy k, cpc, buf_idx, local_copy,
        send_buffer, curr_s⟩ Action.producer =
        ⟨{ dev with
            double_buffer_ := (setSlot dev.double_buffer_ dev.buffer_idx_
              ((dev.double_buffer_ dev.buffer_idx_).copyByte (dev.double_buffer_ buf_idx) k)) },
          lock, ProducerPc.finalizeCopy (k + 1), cpc, buf_idx, local_copy, send_buffer,
          curr_s⟩ := by
      simp [concStep, producerStep, hlt]
    rw [hstep]
    obtain ⟨f, hf, hpf⟩ := ih
      ⟨{ dev with
          double_buffer_ := (setSlot dev.double_buffer_ dev.buffer_idx_
            ((dev.double_buffer_ dev.buffer_idx_).copyByte (dev.double_buffer_ buf_idx) k)) },
        lock, ProducerPc.finalizeCopy (k + 1), cpc, buf_idx, local_copy, send_buffer, curr_s⟩
      (k + 1) rfl (by omega) hne
      (by
        simp only [setSlot_same, setSlot_other _ _ _ _ hne]
        exact prefixEq_copyByte _ _ _ hlt hp)
    refine ⟨f, ?_, ?_⟩
    · rw [hf]
      simp only [setSlot_setSlot]
    · simpa only [setSlot_other _ _ _ _ hne] using hpf

/-- The producer, run alone from the call of `FinalizeInputTickOutput` for
`FRAMEBUFFER_SIZE + 7` steps, leaves the members as the sequential
`FinalizeInputTickOutput` does. -/
theorem producer_alone (σ : Sys) (hlock : σ.lock = LockState.free)
    (hc : σ.ppc = ProducerPc.finalizeWait) :
    ∃ b, runSchedule σ (List.replicate (FRAMEBUFFER_SIZE + 7) Action.producer) =
        { σ with
          dev := FinalizeInputTickOutput σ.dev
          ppc := ProducerPc.done
          buf_idx := b } := by
  obtain ⟨dev, lock, ppc, cpc, buf_idx, local_copy, send_buffer, curr_s⟩ := σ
  simp only at hlock hc
  subst hlock hc
  by_cases hflag : dev.buffer_changed_ = true
  · have hsplit : List.replicate (FRAMEBUFFER_SIZE + 7) Action.producer =
        Action.producer :: Action.producer ::
          (List.replicate FRAMEBUFFER_SIZE Action.producer ++
            List.replicate 5 Action.producer) := by
      rw [← List.replicate_add]
      rfl
    obtain ⟨f, hf, hpf⟩ := producer_copy_loop FRAMEBUFFER_SIZE
      ⟨dev, LockState.heldByProducer, ProducerPc.finalizeCopy 0, cpc, otherIdx dev.buffer_idx_,
        local_copy, send_buffer, curr_s⟩ 0 rfl (by omega) (otherIdx_ne _) (prefixEq_zero _ _)
    refine ⟨otherIdx dev.buffer_idx_, ?_⟩
    rw [hsplit, runSchedule_cons, runSchedule_cons, runSchedule_append]
    have h2 : concStep (concStep ⟨dev, LockState.free, ProducerPc.finalizeWait, cpc, buf_idx,
        local_copy, send_buffer, curr_s⟩ Action.producer) Action.producer =
        ⟨dev, LockState.heldByProducer, ProducerPc.finalizeCopy 0, cpc, otherIdx dev.buffer_idx_,
          local_copy, send_buffer, curr_s⟩ := by
      simp [concStep, producerStep, hflag]
    have hfeq : f = dev.double_buffer_ (otherIdx dev.buffer_idx_) :=
      eq_of_prefixEq _ _ _ (Nat.le_refl _) hpf
    rw [h2, hf, hfeq]
    simp [runSchedule, concStep, producerStep, FinalizeInputTickOutput, hflag]
  · refine ⟨buf_idx, ?_⟩
    have hsplit2 : List.replicate (FRAMEBUFFER_SIZE + 7) Action.producer =
        List.replicate 3 Action.producer ++
          List.replicate (FRAMEBUFFER_SIZE + 4) Action.producer := by
      rw [← List.replicate_add]
      rfl
    rw [hsplit2, runSchedule_append]
    have h3 : runSchedule ⟨dev, LockState.free, ProducerPc.finalizeWait, cpc, buf_idx,
        local_copy, send_buffer, curr_s⟩ (List.replicate 3 Action.producer) =
        ⟨dev, LockState.free, ProducerPc.done, cpc, buf_idx, local_copy, send_buffer,
          curr_s⟩ := by
      simp [runSchedule, concStep, producerStep, hflag]
    rw [h3, producer_done_stutters _ _ rfl]
    simp [FinalizeInputTickOutput, hflag]

/-- Every step of `FinalizeInputTickOutput` keeps the invariant. -/
theorem producerStep_inv (a : Fin 2) (A0 : Frame) (σ : Sys) (h : ConcInv a A0 σ) :
    ConcInv a A0 (producerStep σ) := by
  obtain ⟨dev, lock, ppc, cpc, buf_idx, local_copy, send_buffer, curr_s⟩ := σ
  obtain ⟨hl, hp, hc⟩ := h
  cases ppc <;> cases lock <;> cases cpc <;> simp only [producerStep] <;> (try split_ifs) <;>
    simp_all [ConcInv, lockInv, producerInv, consumerInv, ProducerPc.critical,
      ConsumerPc.critical, WholeFrame]

/-- Every step of the locked block of `OutputTick` keeps the invariant. -/
theorem consumerStep_inv (a : Fin 2) (A0 : Frame) (σ : Sys) (h : ConcInv a A0 σ) :
    ConcInv a A0 (consumerStep σ) := by
  obtain ⟨dev, lock, ppc, cpc, buf_idx, local_copy, send_buffer, curr_s⟩ := σ
  obtain ⟨hl, hp, hc⟩ := h
  cases cpc <;> cases lock <;> cases ppc <;> simp only [consumerStep] <;> (try split_ifs) <;>
    simp_all [ConcInv, lockInv, producerInv, consumerInv, ProducerPc.critical,
      ConsumerPc.critical, WholeFrame] <;>
    first
    | exact prefixEq_zero _ _
    | exact prefixEq_copyByte _ _ _ (by assumption) hc.2
    | exact eq_of_prefixEq _ _ _ (by assumption) hc.2
    | (rcases hp with h | ⟨h1, h2⟩
       · exact Or.inr ⟨h, eq_of_prefixEq _ _ _ (by assumption) hc.2⟩
       · exact Or.inl (by rw [eq_of_prefixEq _ _ _ (by assumption) hc.2, h1, h2]))

/-- Every scheduled step keeps the invariant. -/
theorem concStep_inv (a : Fin 2) (A0 : Frame) (σ : Sys) (act : Action) (h : ConcInv a A0 σ) :
    ConcInv a A0 (concStep σ act) := by
  cases act with
  | producer => exact producerStep_inv a A0 σ h
  | consumer => exact consumerStep_inv a A0 σ h
  | producerWrite k v =>
    obtain ⟨dev, lock, ppc, cpc, buf_idx, local_copy, send_buffer, curr_s⟩ := σ
    obtain ⟨hl, hp, hc⟩ := h
    cases ppc <;> cases lock <;> cases cpc <;>
      simp_all [concStep, ConcInv, lockInv, producerInv, consumerInv, ProducerPc.critical,
        ConsumerPc.critical, WholeFrame, setSlot, otherIdx_ne, ne_otherIdx]
  | producerMark =>
    obtain ⟨dev, lock, ppc, cpc, buf_idx, local_copy, send_buffer, curr_s⟩ := σ
    obtain ⟨hl, hp, hc⟩ := h
    cases ppc <;> cases lock <;> cases cpc <;>
      simp_all [concStep, ConcInv, lockInv, producerInv, consumerInv, ProducerPc.critical,
        ConsumerPc.critical, WholeFrame]
  | producerCall =>
    obtain ⟨dev, lock, ppc, cpc, buf_idx, local_copy, send_buffer, curr_s⟩ := σ
    obtain ⟨hl, hp, hc⟩ := h
    cases ppc <;> cases lock <;> cases cpc <;>
      simp_all [concStep, ConcInv, lockInv, producerInv, consumerInv, ProducerPc.critical,
        ConsumerPc.critical, WholeFrame]


theorem runSchedule_inv (a : Fin 2) (A0 : Frame) (sched : List Action) :
    ∀ σ : Sys, ConcInv a A0 σ → ConcInv a A0 (runSchedule σ sched) := by
  induction sched with
  | nil => intro σ h; exact h
  | cons act sched ih =>
    intro σ h
    exact ih (concStep σ act) (concStep_inv a A0 σ act h)

/-- The invariant holds when the cycle starts, for the active index and frame
of that moment. -/
theorem start_inv (s : SSD1306Display) (time_us : Nat) (scratch : Frame)
    (hs : TargetIsPending s) :
    ConcInv s.buffer_idx_ (s.double_buffer_ s.buffer_idx_) (Sys.start s time_us scratch) := by
  unfold TargetIsPending at hs
  simp [ConcInv, lockInv, producerInv, consumerInv, Sys.start, ProducerPc.critical,
    ConsumerPc.critical, hs]

/-- After the call of `FinalizeInputTickOutput` no step stores into the slot
that was pending at the call. -/
theorem concStep_pendingInv (a : Fin 2) (P : Frame) (σ : Sys) (act : Action)
    (h : pendingInv a P σ) : pendingInv a P (concStep σ act) := by
  obtain ⟨dev, lock, ppc, cpc, buf_idx, local_copy, send_buffer, curr_s⟩ := σ
  obtain ⟨h1, h2⟩ := h
  cases act with
  | producer =>
    cases ppc <;> simp only [concStep, producerStep] <;> (try split_ifs) <;>
      simp_all [pendingInv, setSlot, otherIdx_ne]
  | consumer =>
    cases cpc <;> simp only [concStep, consumerStep] <;> (try split_ifs) <;>
      simp_all [pendingInv]
  | producerWrite k v => cases ppc <;> simp_all [concStep, pendingInv]
  | producerMark => cases ppc <;> simp_all [concStep, pendingInv]
  | producerCall => cases ppc <;> simp_all [concStep, pendingInv]

theorem runSchedule_pendingInv (a : Fin 2) (P : Frame) (sched : List Action) :
    ∀ σ : Sys, pendingInv a P σ → pendingInv a P (runSchedule σ sched) := by
  induction sched with
  | nil => intro σ h; exact h
  | cons act sched ih =>
    intro σ h
    exact ih (concStep σ act) (concStep_pendingInv a P σ act h)

/-- The demonstration schedule on the boot display: the consumer returns having
copied a frame. -/
theorem demo_completes :
    (runSchedule (Sys.start bootDisplay 2000000 Frame.zero) (demoMutate ++ demoDrain)).cpc
      = ConsumerPc.done ∧
    (runSchedule (Sys.start bootDisplay 2000000 Frame.zero)
      (demoMutate ++ demoDrain)).send_buffer = true := by
  unfold demoDrain
  rw [runSchedule_append, runSchedule_append]
  obtain ⟨b, hb⟩ := producer_alone
    (runSchedule (Sys.start bootDisplay 2000000 Frame.zero) demoMutate) rfl rfl
  rw [hb]
  obtain ⟨f, hf, _⟩ := consumer_alone
    { runSchedule (Sys.start bootDisplay 2000000 Frame.zero) demoMutate with
      dev := FinalizeInputTickOutput
        (runSchedule (Sys.start bootDisplay 2000000 Frame.zero) demoMutate).dev
      ppc := ProducerPc.done
      buf_idx := b } rfl rfl rfl
  rw [hf]
  exact ⟨rfl, rfl⟩

/-! ## Slot ownership and string truncation -/

/-- A library call stores only into the slot the library draws into. -/
theorem draw_other_slot (g : Frame → Frame) (s : SSD1306Display) (j : Fin 2)
    (hj : j ≠ s.display_buffer_) : (draw g s).double_buffer_ j = s.double_buffer_ j := by
  simp [draw, setSlot, hj]

theorem drawTextLoop_other_slot (r : Renderer) (font_buf : List Nat) (width row col : Nat)
    (mode : Mode) (text : List Char) :
    ∀ (off : Nat) (s : SSD1306Display) (j : Fin 2), j ≠ s.display_buffer_ →
      (drawTextLoop r font_buf width row col mode text off s).double_buffer_ j
        = s.double_buffer_ j := by
  induction text with
  | nil => intro off s j _; rfl
  | cons c cs ih =>
    intro off s j hj
    simp only [drawTextLoop]
    rw [ih _ _ j (by rw [(draw_fields _ s).2.1]; exact hj)]
    exact draw_other_slot _ s j hj

theorem DrawRect_other_slot (r : Renderer) (r0 c0 r1 c1 : Nat) (fill : Bool) (mode : Mode)
    (s : SSD1306Display) (j : Fin 2) (hj : j ≠ s.display_buffer_) :
    (DrawRect r r0 c0 r1 c1 fill mode s).double_buffer_ j = s.double_buffer_ j := by
  cases fill <;> simp [DrawRect, draw, setSlot, hj]

theorem changeActiveLayersLoop_other_slot (r : Renderer) (layers : List Bool) :
    ∀ (fuel i : Nat) (s : SSD1306Display) (j : Fin 2), j ≠ s.display_buffer_ →
      (changeActiveLayersLoop r layers fuel i s).double_buffer_ j = s.double_buffer_ j := by
  intro fuel
  induction fuel with
  | zero => intro i s j _; rfl
  | succ n ih =>
    intro i s j hj
    simp only [changeActiveLayersLoop]
    split
    · rw [ih _ _ j (by rw [(DrawRect_fields r _ _ _ _ _ _ s).2.1]; exact hj)]
      exact DrawRect_other_slot r _ _ _ _ _ _ s j hj
    · rfl

/-- Every call but `FinalizeInputTickOutput` keeps the active index and every
slot other than the one the library draws into. -/
theorem step_keeps_other_slot (r : Renderer) (i2c : List Nat → Int) (s : SSD1306Display)
    (op : Op) (hop : op ≠ Op.finalizeInputTickOutput) :
    (step r i2c s op).buffer_idx_ = s.buffer_idx_ ∧
    (∀ j, j ≠ s.display_buffer_ → (step r i2c s op).double_buffer_ j = s.double_buffer_ j) := by
  cases op with
  | startOfInputTick => exact ⟨rfl, fun _ _ => rfl⟩
  | finalizeInputTickOutput => exact absurd rfl hop
  | outputTick t =>
    obtain ⟨h1, h2, _⟩ := OutputTick_frame i2c t s
    exact ⟨h1, fun j _ => by simp only [step]; rw [h2]⟩
  | setPixel row col mode =>
    exact ⟨rfl, fun j hj => by simp [step, SetPixel, draw, setSlot, hj]⟩
  | drawLine r0 c0 r1 c1 mode =>
    exact ⟨rfl, fun j hj => by simp [step, DrawLine, draw, setSlot, hj]⟩
  | drawRect r0 c0 r1 c1 fill mode =>
    exact ⟨(DrawRect_fields r r0 c0 r1 c1 fill mode s).1,
      fun j hj => DrawRect_other_slot r r0 c0 r1 c1 fill mode s j hj⟩
  | drawText row col text font mode =>
    cases font <;>
      exact ⟨(drawTextLoop_fields r _ _ row col mode text 0 s).1,
        fun j hj => drawTextLoop_other_slot r _ _ row col mode text 0 s j hj⟩
  | drawTextCustom row col text font_buf mode =>
    exact ⟨(drawTextLoop_fields r _ _ row col mode text 0 s).1,
      fun j hj => drawTextLoop_other_slot r _ _ row col mode text 0 s j hj⟩
  | changeActiveLayers layers =>
    exact ⟨(changeActiveLayersLoop_fields r layers 16 0 s).1,
      fun j hj => changeActiveLayersLoop_other_slot r layers 16 0 s j hj⟩

/-- What the callback does with a table string of any length: with
`n = min (length mod 256, 31)` it returns the 32-unit buffer whose first `n + 1`
units are the header for `n` characters followed by the first `n` characters,
widened, and whose other units are as before the call. -/
theorem tud_descriptor_string_cb_truncates (cs : Bool) (table : List (List Nat))
    (buffer : List Nat) (index : Nat) (hi : index < table.length) (h0 : index ≠ 0)
    (hbuf : buffer.length = 32) :
    ∃ b, tud_descriptor_string_cb cs table buffer index = some b ∧
      b.length = 32 ∧
      b.take (min ((table.getD index []).length % 256) 31 + 1) =
        ((TUSB_DESC_STRING <<< 8) ||| (2 * (min ((table.getD index []).length % 256) 31 + 1)))
          :: ((table.getD index []).take (min ((table.getD index []).length % 256) 31)).map
              (charToU16 cs) ∧
      (∀ k, min ((table.getD index []).length % 256) 31 < k → b[k]? = buffer[k]?) := by
  have hcb := tud_descriptor_string_cb_pos cs table buffer index hi h0
  generalize table.getD index [] = str at hcb ⊢
  have hn : (if str.length % 256 > 31 then 31 else str.length % 256)
      = min (str.length % 256) 31 := by
    split <;> omega
  rw [hn] at hcb
  generalize hN : min (str.length % 256) 31 = n at hcb ⊢
  have hn31 : n ≤ 31 := by omega
  have hnlen : n ≤ str.length := by
    have : str.length % 256 ≤ str.length := Nat.mod_le _ _
    omega
  rw [header_unit n hn31] at hcb
  refine ⟨_, hcb, ?_, ?_, ?_⟩
  · rw [List.length_set, widenLoop_length, hbuf]
  · apply List.ext_getElem?
    intro k
    rw [List.getElem?_take]
    by_cases hk : k < n + 1
    · rw [if_pos hk, List.getElem?_set]
      cases k with
      | zero =>
        rw [if_pos rfl, widenLoop_length, if_pos (by omega)]
        simp
      | succ j =>
        rw [if_neg (by omega), widenLoop_getElem?, if_pos (by omega)]
        have hj : j < str.length := by omega
        have hjn : j < n := by omega
        simp only [Nat.add_sub_cancel, List.getElem?_cons_succ, List.getElem?_map,
          List.getElem?_take, if_pos hjn, List.getD_eq_getElem _ _ hj,
          List.getElem?_eq_getElem hj, Option.map_some']
    · rw [if_neg hk]
      symm
      apply List.getElem?_eq_none
      simp only [List.length_cons, List.length_map, List.length_take]
      omega
  · intro k hk
    rw [List.getElem?_set, if_neg (by omega), widenLoop_getElem?, if_neg (by omega)]

/-! ## The new-data flag in `OutputTick` -/

/-- The trace of `OutputTick` is the events of its locked block followed by
bus writes only. -/
theorem OutputTick_trace_after_lock (i2c : List Nat → Int) (t : Nat) (s : SSD1306Display) :
    ∃ rest, (OutputTick i2c t s).trace = (lockedSection (seconds32 t) s).2.2 ++ rest ∧
      rest.all Event.isBusWrite = true := by
  by_cases hflag : s.send_buffer_ = true
  · have hl : (lockedSection (seconds32 t) s).2.2 =
        [Event.take, Event.copy s.buffer_idx_, Event.storeLastActive (seconds32 t),
          Event.storeSendBuffer false, Event.give] := by
      simp [lockedSection, hflag]
    by_cases hgo : s.sleep_ = true ∨ 1 ≤ s.sleep_s_
    · refine ⟨(if s.sleep_ then [CMD i2c SSD1306_DISPLAY_ON] else []) ++
          [CMD i2c SSD1306_PAGEADDR, CMD i2c 0x00, CMD i2c 0x07,
            CMD i2c SSD1306_COLUMNADDR, CMD i2c 0x00, CMD i2c 127,
            Event.i2cWrite (localCopy s) (i2c (localCopy s))], ?_, ?_⟩
      · rw [(OutputTick_send i2c t s hflag hgo).2, hl]
        simp only [List.append_assoc]
      · cases s.sleep_ <;> simp [CMD, Event.isBusWrite]
    · have hawake : s.sleep_ = false := by
        cases h : s.sleep_
        · rfl
        · exact absurd (Or.inl h) hgo
      have h0 : s.sleep_s_ = 0 := by
        have : ¬ (1 ≤ s.sleep_s_) := fun h => hgo (Or.inr h)
        omega
      refine ⟨[CMD i2c SSD1306_DISPLAY_OFF], ?_, by simp [CMD, Event.isBusWrite]⟩
      rw [(OutputTick_zero_threshold i2c t s hflag h0 hawake).2, hl]
      rfl
  · have hflag2 : s.send_buffer_ = false := by simpa using hflag
    have hl : (lockedSection (seconds32 t) s).2.2 =
        [Event.take, Event.storeSendBuffer false, Event.give] := by
      simp [lockedSection, hflag2]
    by_cases hsl : s.sleep_ = false ∧ sub32 (seconds32 t) s.last_active_s_ ≥ s.sleep_s_
    · refine ⟨[CMD i2c SSD1306_DISPLAY_OFF], ?_, by simp [CMD, Event.isBusWrite]⟩
      rw [(OutputTick_clear_sleeps i2c t s hflag2 hsl.1 hsl.2).2, hl]
      rfl
    · refine ⟨[], ?_, rfl⟩
      rw [(OutputTick_clear_idle i2c t s hflag2 hsl).2, hl]
      rfl

/-- The locked block of `OutputTick`: between `take` and `give` it stores
`false` to `send_buffer_`, after the copy and the time stamp when there was new
data, and the state it leaves has the flag clear. -/
theorem lockedSection_clears (curr_s : Nat) (s : SSD1306Display) :
    (lockedSection curr_s s).1.send_buffer_ = false ∧
    ∃ before,
      (lockedSection curr_s s).2.2
        = Event.take :: (before ++ [Event.storeSendBuffer false, Event.give]) ∧
      before.all (Event.isLockedWork s.buffer_idx_) = true := by
  by_cases hflag : s.send_buffer_ = true
  · refine ⟨by simp [lockedSection, hflag],
      [Event.copy s.buffer_idx_, Event.storeLastActive curr_s], ?_, ?_⟩
    · simp [lockedSection, hflag]
    · simp [Event.isLockedWork]
  · have hflag2 : s.send_buffer_ = false := by simpa using hflag
    refine ⟨by simp [lockedSection, hflag2], [], ?_, rfl⟩
    simp [lockedSection, hflag2]

/-! ## Settled properties -/

/-- C1: in every state reached from construction in which a mutator has run
since the last `StartOfInputTick` (the calls after the mutator `m` contain no
`StartOfInputTick`), `FinalizeInputTickOutput` flips the active index to
`(buffer_idx_ + 1) mod 2`, sets `send_buffer_`, and leaves in the new active
slot the frame that was in the pending slot, which is the slot the library was
drawing into; the other slot then holds the same frame and becomes the slot the
library draws into. -/
theorem C1_finalize_publishes_pending (r : Renderer) (i2c : List Nat → Int)
    (num_rows sleep_s time_us : Nat) (pre post : List Op) (m : Op)
    (hm : m.isMutator = true) (hpost : ∀ op ∈ post, op.isStart = false) :
    let s := run r i2c (SSD1306Display.construct num_rows sleep_s time_us) (pre ++ m :: post)
    let pending := s.double_buffer_ (otherIdx s.buffer_idx_)
    let s' := FinalizeInputTickOutput s
    s.display_buffer_ = otherIdx s.buffer_idx_ ∧
    s'.buffer_idx_.val = (s.buffer_idx_.val + 1) % 2 ∧
    s'.send_buffer_ = true ∧
    s'.double_buffer_ s'.buffer_idx_ = pending ∧
    s'.double_buffer_ (otherIdx s'.buffer_idx_) = pending ∧
    s'.display_buffer_ = otherIdx s'.buffer_idx_ := by
  intro s pending s'
  have hinv : TargetIsPending s :=
    run_TargetIsPending r i2c _ _ (construct_TargetIsPending num_rows sleep_s time_us)
  have hc : s.buffer_changed_ = true := by
    show (run r i2c _ (pre ++ m :: post)).buffer_changed_ = true
    rw [run_append]
    exact run_keeps_changed r i2c post _ hpost (step_mutator_changed r i2c _ m hm)
  obtain ⟨h1, h2, h3, h4, h5⟩ := finalize_dirty s hc
  refine ⟨hinv, ?_, h2, ?_, ?_, ?_⟩
  · show (FinalizeInputTickOutput s).buffer_idx_.val = _
    rw [h1]; rfl
  · show (FinalizeInputTickOutput s).double_buffer_ (FinalizeInputTickOutput s).buffer_idx_ = _
    rw [h1]; exact h4
  · show (FinalizeInputTickOutput s).double_buffer_
      (otherIdx (FinalizeInputTickOutput s).buffer_idx_) = _
    rw [h1, otherIdx_otherIdx]; exact h5
  · show (FinalizeInputTickOutput s).display_buffer_
      = otherIdx (FinalizeInputTickOutput s).buffer_idx_
    rw [h1, h3, otherIdx_otherIdx]

/-- C1 at a concrete run on the boot display with the panel renderer: an
`OutputTick`, `StartOfInputTick`, the mutator `ChangeActiveLayers [true, false,
true]`, then a `SetPixel` and another `OutputTick`. -/
theorem C1_finalize_publishes_pending_witness :
    (Op.changeActiveLayers [true, false, true]).isMutator = true ∧
    (∀ op ∈ demoAfter, op.isStart = false) ∧
    (let s := run panelRenderer ackBus (SSD1306Display.construct 64 120 1000000)
        (demoBefore ++ Op.changeActiveLayers [true, false, true] :: demoAfter)
     let pending := s.double_buffer_ (otherIdx s.buffer_idx_)
     let s' := FinalizeInputTickOutput s
     s.display_buffer_ = otherIdx s.buffer_idx_ ∧
     s'.buffer_idx_.val = (s.buffer_idx_.val + 1) % 2 ∧
     s'.send_buffer_ = true ∧
     s'.double_buffer_ s'.buffer_idx_ = pending ∧
     s'.double_buffer_ (otherIdx s'.buffer_idx_) = pending ∧
     s'.display_buffer_ = otherIdx s'.buffer_idx_) :=
  ⟨by rfl, by decide,
   C1_finalize_publishes_pending panelRenderer ackBus 64 120 1000000 demoBefore demoAfter
    (Op.changeActiveLayers [true, false, true]) (by rfl) (by decide)⟩

/-- C2: one producer cycle interleaved in any way with one `OutputTick` on
another task, from a state in which the library draws into the non-active slot.
`pre` is the schedule up to the call of `FinalizeInputTickOutput` (the byte
stores of the mutators, and whatever part of `OutputTick` ran meanwhile), `post`
the rest. When `OutputTick` has left its locked block having copied a frame, its
scratch buffer holds, whole, either the frame that was active before the cycle,
or the pending frame as the mutators left it at the call, which the producer,
back from `FinalizeInputTickOutput`, has made the active slot: never a mixture
of the two. -/
theorem C2_atomic_publish (s : SSD1306Display) (time_us : Nat) (scratch : Frame)
    (hs : TargetIsPending s) (pre post : List Action)
    (hcall : (runSchedule (Sys.start s time_us scratch) pre).ppc = ProducerPc.finalizeWait)
    (hdone : (runSchedule (Sys.start s time_us scratch) (pre ++ post)).cpc = ConsumerPc.done)
    (hcopied : (runSchedule (Sys.start s time_us scratch) (pre ++ post)).send_buffer = true) :
    (runSchedule (Sys.start s time_us scratch) (pre ++ post)).local_copy
        = s.double_buffer_ s.buffer_idx_ ∨
    ((runSchedule (Sys.start s time_us scratch) (pre ++ post)).local_copy
        = (runSchedule (Sys.start s time_us scratch) pre).dev.double_buffer_
            (otherIdx s.buffer_idx_) ∧
      (runSchedule (Sys.start s time_us scratch) (pre ++ post)).ppc = ProducerPc.done ∧
      (runSchedule (Sys.start s time_us scratch) (pre ++ post)).dev.buffer_idx_
        = otherIdx s.buffer_idx_ ∧
      (runSchedule (Sys.start s time_us scratch) (pre ++ post)).dev.double_buffer_
          (otherIdx s.buffer_idx_)
        = (runSchedule (Sys.start s time_us scratch) pre).dev.double_buffer_
            (otherIdx s.buffer_idx_)) := by
  have hpre := runSchedule_inv s.buffer_idx_ (s.double_buffer_ s.buffer_idx_) pre _
    (start_inv s time_us scratch hs)
  have hall := runSchedule_inv s.buffer_idx_ (s.double_buffer_ s.buffer_idx_) (pre ++ post) _
    (start_inv s time_us scratch hs)
  have hidx : (runSchedule (Sys.start s time_us scratch) pre).dev.buffer_idx_
      = s.buffer_idx_ := by
    have hp := hpre.2.1
    unfold producerInv at hp
    rw [hcall] at hp
    exact hp.1
  have hpend : pendingInv s.buffer_idx_
      ((runSchedule (Sys.start s time_us scratch) pre).dev.double_buffer_
        (otherIdx s.buffer_idx_))
      (runSchedule (Sys.start s time_us scratch) pre) := by
    unfold pendingInv
    rw [hcall]
    exact ⟨rfl, hidx⟩
  have hpend2 := runSchedule_pendingInv _ _ post _ hpend
  rw [← runSchedule_append] at hpend2
  have hc := hall.2.2
  unfold consumerInv at hc
  rw [hdone] at hc
  rcases hc hcopied with h | ⟨h1, h2, h3⟩
  · exact Or.inl h
  · refine Or.inr ⟨?_, h1, h2, hpend2.1⟩
    rw [h3, h2]
    exact hpend2.1

/-- C2 at a concrete schedule on the boot display: one byte drawn, the frame
published, then `OutputTick`. -/
theorem C2_atomic_publish_witness :
    TargetIsPending bootDisplay ∧
    (runSchedule (Sys.start bootDisplay 2000000 Frame.zero) demoMutate).ppc
      = ProducerPc.finalizeWait ∧
    (runSchedule (Sys.start bootDisplay 2000000 Frame.zero) (demoMutate ++ demoDrain)).cpc
      = ConsumerPc.done ∧
    (runSchedule (Sys.start bootDisplay 2000000 Frame.zero)
      (demoMutate ++ demoDrain)).send_buffer = true ∧
    ((runSchedule (Sys.start bootDisplay 2000000 Frame.zero)
        (demoMutate ++ demoDrain)).local_copy
        = bootDisplay.double_buffer_ bootDisplay.buffer_idx_ ∨
    ((runSchedule (Sys.start bootDisplay 2000000 Frame.zero)
        (demoMutate ++ demoDrain)).local_copy
        = (runSchedule (Sys.start bootDisplay 2000000 Frame.zero) demoMutate).dev.double_buffer_
            (otherIdx bootDisplay.buffer_idx_) ∧
      (runSchedule (Sys.start bootDisplay 2000000 Frame.zero) (demoMutate ++ demoDrain)).ppc
        = ProducerPc.done ∧
      (runSchedule (Sys.start bootDisplay 2000000 Frame.zero)
        (demoMutate ++ demoDrain)).dev.buffer_idx_ = otherIdx bootDisplay.buffer_idx_ ∧
      (runSchedule (Sys.start bootDisplay 2000000 Frame.zero)
        (demoMutate ++ demoDrain)).dev.double_buffer_ (otherIdx bootDisplay.buffer_idx_)
        = (runSchedule (Sys.start bootDisplay 2000000 Frame.zero) demoMutate).dev.double_buffer_
            (otherIdx bootDisplay.buffer_idx_))) :=
  ⟨construct_TargetIsPending 64 120 1000000, by rfl, demo_completes.1, demo_completes.2,
   C2_atomic_publish bootDisplay 2000000 Frame.zero
    (construct_TargetIsPending 64 120 1000000) demoMutate demoDrain (by rfl)
    demo_completes.1 demo_completes.2⟩

/-- C3: on a state whose new-data flag is clear, `StartOfInputTick` followed by
`FinalizeInputTickOutput` with no mutator in between swaps nothing (the active
index, both slots, the slot the library draws into and the new-data flag are
unchanged), and the `OutputTick` that follows copies no slot and writes no frame
to the bus: its bus writes are nothing at all or the single panel-off command. -/
theorem C3_clean_cycle_no_swap_no_transfer (i2c : List Nat → Int) (t : Nat)
    (s : SSD1306Display) (hflag : s.send_buffer_ = false) :
    let s1 := FinalizeInputTickOutput (StartOfInputTick s)
    s1.buffer_idx_ = s.buffer_idx_ ∧
    s1.double_buffer_ = s.double_buffer_ ∧
    s1.display_buffer_ = s.display_buffer_ ∧
    s1.send_buffer_ = false ∧
    (∀ i, Event.copy i ∉ (OutputTick i2c t s1).trace) ∧
    (busWrites (OutputTick i2c t s1).trace = [] ∨
      busWrites (OutputTick i2c t s1).trace = [[0x00, SSD1306_DISPLAY_OFF]]) := by
  intro s1
  have e1 : s1 = StartOfInputTick s := by
    show FinalizeInputTickOutput (StartOfInputTick s) = StartOfInputTick s
    simp [FinalizeInputTickOutput, StartOfInputTick]
  have hf : s1.send_buffer_ = false := by rw [e1]; exact hflag
  refine ⟨by rw [e1]; rfl, by rw [e1]; rfl, by rw [e1]; rfl, hf, ?_, ?_⟩
  · intro i
    by_cases hsl : s1.sleep_ = false ∧ sub32 (seconds32 t) s1.last_active_s_ ≥ s1.sleep_s_
    · rw [(OutputTick_clear_sleeps i2c t s1 hf hsl.1 hsl.2).2]
      simp [CMD]
    · rw [(OutputTick_clear_idle i2c t s1 hf hsl).2]
      simp
  · by_cases hsl : s1.sleep_ = false ∧ sub32 (seconds32 t) s1.last_active_s_ ≥ s1.sleep_s_
    · right
      rw [(OutputTick_clear_sleeps i2c t s1 hf hsl.1 hsl.2).2]
      rfl
    · left
      rw [(OutputTick_clear_idle i2c t s1 hf hsl).2]
      rfl

/-- C3 at a concrete state: the idle display (new-data flag clear) at second 3. -/
theorem C3_clean_cycle_witness :
    idleDisplay.send_buffer_ = false ∧
    (let s1 := FinalizeInputTickOutput (StartOfInputTick idleDisplay)
     s1.buffer_idx_ = idleDisplay.buffer_idx_ ∧
     s1.double_buffer_ = idleDisplay.double_buffer_ ∧
     s1.display_buffer_ = idleDisplay.display_buffer_ ∧
     s1.send_buffer_ = false ∧
     (∀ i, Event.copy i ∉ (OutputTick ackBus 3000000 s1).trace) ∧
     (busWrites (OutputTick ackBus 3000000 s1).trace = [] ∨
       busWrites (OutputTick ackBus 3000000 s1).trace = [[0x00, SSD1306_DISPLAY_OFF]])) :=
  ⟨by rfl, C3_clean_cycle_no_swap_no_transfer ackBus 3000000 idleDisplay (by rfl)⟩

/-- C4: on an awake state whose new-data flag is clear, whatever the slots and
the dirty marker hold, `OutputTick` at a time whose second count is not below
`last_active_s_` goes to sleep exactly when that count minus `last_active_s_`
reaches `sleep_s_`; when it does, its only bus write is the panel-off command;
when it does not, it writes nothing to the bus (and stays awake). -/
theorem C4_sleep_exactly_at_threshold (i2c : List Nat → Int) (t : Nat) (s : SSD1306Display)
    (hawake : s.sleep_ = false) (hflag : s.send_buffer_ = false)
    (hnow : s.last_active_s_ ≤ seconds32 t) :
    ((OutputTick i2c t s).state.sleep_ = true ↔
      seconds32 t - s.last_active_s_ ≥ s.sleep_s_) ∧
    ((OutputTick i2c t s).state.sleep_ = true →
      busWrites (OutputTick i2c t s).trace = [[0x00, SSD1306_DISPLAY_OFF]]) ∧
    ((OutputTick i2c t s).state.sleep_ = false →
      busWrites (OutputTick i2c t s).trace = []) := by
  have hsub : sub32 (seconds32 t) s.last_active_s_ = seconds32 t - s.last_active_s_ :=
    sub32_of_le _ _ (seconds32_lt t) hnow
  by_cases hidle : seconds32 t - s.last_active_s_ ≥ s.sleep_s_
  · obtain ⟨hs, ht⟩ := OutputTick_clear_sleeps i2c t s hflag hawake (by rw [hsub]; exact hidle)
    rw [hs, ht]
    refine ⟨⟨fun _ => hidle, fun _ => rfl⟩, fun _ => rfl, fun h => ?_⟩
    simp at h
  · obtain ⟨hs, ht⟩ := OutputTick_clear_idle i2c t s hflag
      (by rw [hsub]; exact fun h => hidle h.2)
    rw [hs, ht]
    refine ⟨⟨fun h => ?_, fun h => absurd h hidle⟩, fun h => ?_, fun _ => rfl⟩
    · rw [hawake] at h; simp at h
    · rw [hawake] at h; simp at h

/-- C4 at a concrete state: threshold 120 s, last transfer at second 1, the
clock at second 121 (the panel goes to sleep). -/
theorem C4_sleep_witness :
    idleDisplay.sleep_ = false ∧ idleDisplay.send_buffer_ = false ∧
    idleDisplay.last_active_s_ ≤ seconds32 121000000 ∧
    ((OutputTick ackBus 121000000 idleDisplay).state.sleep_ = true ↔
      seconds32 121000000 - idleDisplay.last_active_s_ ≥ idleDisplay.sleep_s_) ∧
    ((OutputTick ackBus 121000000 idleDisplay).state.sleep_ = true →
      busWrites (OutputTick ackBus 121000000 idleDisplay).trace
        = [[0x00, SSD1306_DISPLAY_OFF]]) ∧
    ((OutputTick ackBus 121000000 idleDisplay).state.sleep_ = false →
      busWrites (OutputTick ackBus 121000000 idleDisplay).trace = []) :=
  ⟨by rfl, by rfl, by decide,
   C4_sleep_exactly_at_threshold ackBus 121000000 idleDisplay (by rfl) (by rfl) (by decide)⟩

/-- C5: on a state with new data available and a threshold of at least one
second, `OutputTick` clears the new-data flag, records the current second as
`last_active_s_`, ends awake, and writes to the bus, in this order: the panel-on
command exactly when the display was asleep, the page-address command with
bounds 0 and 7, the column-address command with bounds 0 and 127, and one block
of `1 + FRAMEBUFFER_SIZE` bytes: `SSD1306_STARTLINE` followed by the bytes of the
active slot as they were at the copy. -/
theorem C5_wake_and_transfer (i2c : List Nat → Int) (t : Nat) (s : SSD1306Display)
    (hflag : s.send_buffer_ = true) (hthr : 1 ≤ s.sleep_s_) :
    (OutputTick i2c t s).state.send_buffer_ = false ∧
    (OutputTick i2c t s).state.last_active_s_ = seconds32 t ∧
    (OutputTick i2c t s).state.sleep_ = false ∧
    busWrites (OutputTick i2c t s).trace =
      (if s.sleep_ then [[0x00, SSD1306_DISPLAY_ON]] else []) ++
      [[0x00, SSD1306_PAGEADDR], [0x00, 0], [0x00, 7],
       [0x00, SSD1306_COLUMNADDR], [0x00, 0], [0x00, 127],
       SSD1306_STARTLINE :: (s.double_buffer_ s.buffer_idx_).bytes] ∧
    (SSD1306_STARTLINE :: (s.double_buffer_ s.buffer_idx_).bytes).length
      = 1 + FRAMEBUFFER_SIZE := by
  obtain ⟨hs, ht⟩ := OutputTick_send i2c t s hflag (Or.inr hthr)
  rw [hs, ht]
  refine ⟨rfl, rfl, rfl, ?_, ?_⟩
  · cases s.sleep_ <;> rfl
  · rw [List.length_cons, (s.double_buffer_ s.buffer_idx_).size_eq, Nat.add_comm]

/-- C5 at a concrete state: the sleeping display once a frame has been
published (threshold 120 s), at second 200. -/
theorem C5_wake_and_transfer_witness :
    publishedWhileAsleep.send_buffer_ = true ∧ 1 ≤ publishedWhileAsleep.sleep_s_ ∧
    publishedWhileAsleep.sleep_ = true ∧
    (OutputTick ackBus 200000000 publishedWhileAsleep).state.send_buffer_ = false ∧
    (OutputTick ackBus 200000000 publishedWhileAsleep).state.last_active_s_
      = seconds32 200000000 ∧
    (OutputTick ackBus 200000000 publishedWhileAsleep).state.sleep_ = false ∧
    busWrites (OutputTick ackBus 200000000 publishedWhileAsleep).trace =
      (if publishedWhileAsleep.sleep_ then [[0x00, SSD1306_DISPLAY_ON]] else []) ++
      [[0x00, SSD1306_PAGEADDR], [0x00, 0], [0x00, 7],
       [0x00, SSD1306_COLUMNADDR], [0x00, 0], [0x00, 127],
       SSD1306_STARTLINE ::
        (publishedWhileAsleep.double_buffer_ publishedWhileAsleep.buffer_idx_).bytes] ∧
    (SSD1306_STARTLINE ::
        (publishedWhileAsleep.double_buffer_ publishedWhileAsleep.buffer_idx_).bytes).length
      = 1 + FRAMEBUFFER_SIZE :=
  ⟨by rfl, by decide, by rfl,
   C5_wake_and_transfer ackBus 200000000 publishedWhileAsleep (by rfl) (by decide)⟩

/-- C6, refuted as stated: the boot display has new data; on a bus that
acknowledges nothing the frame block is not delivered, and yet the new-data flag
is clear when `OutputTick` returns. -/
theorem C6_flag_cleared_despite_bus_failure :
    bootDisplay.send_buffer_ = true ∧
    blockDelivered (localCopy bootDisplay) (OutputTick nackBus 2000000 bootDisplay).trace
      = false ∧
    (OutputTick nackBus 2000000 bootDisplay).state.send_buffer_ = false := by
  refine ⟨rfl, ?_, rfl⟩
  rw [(OutputTick_send nackBus 2000000 bootDisplay rfl (Or.inr (by decide))).2]
  simp [blockDelivered, CMD, nackBus, bootDisplay, SSD1306Display.construct, localCopy]
  decide

/-- C6 as amended: in every `OutputTick`, whatever the bus writes report, the
store of `false` to the new-data flag is the last step under the lock: the
trace is `take`, then only the copy of the active slot and the time stamp, then
that store, then `give`, and only after it the bus writes. The flag is clear in
the state the locked block leaves and when the call returns, whether or not the
call reaches the block transfer; the `OutputTick` after it therefore copies no
slot and sends no frame (its bus writes are nothing or the single panel-off
command): a frame that was not delivered is not retried. -/
theorem C6_flag_always_cleared (i2c i2c2 : List Nat → Int) (t t2 : Nat)
    (s : SSD1306Display) :
    (∃ before after,
      (OutputTick i2c t s).trace =
        Event.take :: (before ++ [Event.storeSendBuffer false, Event.give] ++ after) ∧
      before.all (Event.isLockedWork s.buffer_idx_) = true ∧
      after.all Event.isBusWrite = true) ∧
    (lockedSection (seconds32 t) s).1.send_buffer_ = false ∧
    (OutputTick i2c t s).state.send_buffer_ = false ∧
    (∀ i, Event.copy i ∉ (OutputTick i2c2 t2 (OutputTick i2c t s).state).trace) ∧
    (busWrites (OutputTick i2c2 t2 (OutputTick i2c t s).state).trace = [] ∨
      busWrites (OutputTick i2c2 t2 (OutputTick i2c t s).state).trace
        = [[0x00, SSD1306_DISPLAY_OFF]]) := by
  have hclear : (OutputTick i2c t s).state.send_buffer_ = false := by
    unfold OutputTick lockedSection
    by_cases h1 : s.send_buffer_ = true <;> by_cases h2 : s.sleep_ = true <;>
      by_cases h3 : sub32 (seconds32 t) (seconds32 t) ≥ s.sleep_s_ <;>
      by_cases h4 : sub32 (seconds32 t) s.last_active_s_ ≥ s.sleep_s_ <;>
      simp [h1, h2, h3, h4]
  obtain ⟨hlocked, before, hbefore, hwork⟩ := lockedSection_clears (seconds32 t) s
  obtain ⟨after, hafter, hbus⟩ := OutputTick_trace_after_lock i2c t s
  refine ⟨⟨before, after, ?_, hwork, hbus⟩, hlocked, hclear, ?_, ?_⟩
  · rw [hafter, hbefore]
    simp only [List.cons_append, List.append_assoc]
  · intro i
    by_cases hsl : (OutputTick i2c t s).state.sleep_ = false ∧
        sub32 (seconds32 t2) (OutputTick i2c t s).state.last_active_s_
          ≥ (OutputTick i2c t s).state.sleep_s_
    · rw [(OutputTick_clear_sleeps i2c2 t2 _ hclear hsl.1 hsl.2).2]
      simp [CMD]
    · rw [(OutputTick_clear_idle i2c2 t2 _ hclear hsl).2]
      simp
  · by_cases hsl : (OutputTick i2c t s).state.sleep_ = false ∧
        sub32 (seconds32 t2) (OutputTick i2c t s).state.last_active_s_
          ≥ (OutputTick i2c t s).state.sleep_s_
    · right
      rw [(OutputTick_clear_sleeps i2c2 t2 _ hclear hsl.1 hsl.2).2]
      rfl
    · left
      rw [(OutputTick_clear_idle i2c2 t2 _ hclear hsl).2]
      rfl

/-- C7: every execution of `OutputTick` takes the lock once, as its first step,
and gives it back once; between the two it only copies the active slot into the
scratch buffer and stores to `last_active_s_` and `send_buffer_`; everything
after the release, and nothing before it, is a bus write. -/
theorem C7_no_bus_write_under_lock (i2c : List Nat → Int) (t : Nat) (s : SSD1306Display) :
    ∃ inner rest,
      (OutputTick i2c t s).trace = Event.take :: (inner ++ Event.give :: rest) ∧
      inner.all (Event.isLockedWork s.buffer_idx_) = true ∧
      rest.all Event.isBusWrite = true := by
  obtain ⟨inner, rest, htr, hin, hrest⟩ := OutputTick_trace_cases i2c t s
  refine ⟨inner, rest, htr, ?_, ?_⟩
  · rcases hin with h | h <;> subst h <;> simp [Event.isLockedWork]
  · rw [List.all_eq_true]
    intro e he
    obtain ⟨d, hd⟩ := hrest e he
    rw [hd]; rfl

/-- C9: with a 32-unit buffer, `tud_descriptor_string_cb` returns for index 0
the buffer whose first two units are `0x0304, 0x0409`; for every index 1..6
whose table string has `n <= 31` ASCII characters, the buffer whose first `n + 1`
units are `(TUSB_DESC_STRING << 8) | 2 (n + 1)` followed by the characters, each
widened to 16 bits with its ASCII value; and for every index from 7 on, `NULL`. -/
theorem C9_string_descriptor_encoding (cs : Bool) (vendor product serial buffer : List Nat)
    (hbuf : buffer.length = 32) :
    (∃ b, tud_descriptor_string_cb cs (string_desc_arr vendor product serial) buffer 0 = some b ∧
      b.length = 32 ∧ b.take 2 = [0x0304, 0x0409]) ∧
    (∀ index str, 1 ≤ index → index ≤ 6 →
      (string_desc_arr vendor product serial)[index]? = some str →
      str.length ≤ 31 → (∀ c ∈ str, c < 128) →
      ∃ b, tud_descriptor_string_cb cs (string_desc_arr vendor product serial) buffer index
          = some b ∧
        b.length = 32 ∧
        b.take (str.length + 1)
          = ((TUSB_DESC_STRING <<< 8) ||| (2 * (str.length + 1))) :: str) ∧
    (∀ index, 7 ≤ index →
      tud_descriptor_string_cb cs (string_desc_arr vendor product serial) buffer index = none) := by
  have hT : (string_desc_arr vendor product serial).length = 7 := rfl
  refine ⟨?_, ?_, ?_⟩
  · match buffer, hbuf with
    | a :: b :: rest, h =>
      refine ⟨_, rfl, ?_, ?_⟩
      · simpa using h
      · rfl
  · intro index str h1 h6 hstr hlen hascii
    have hget : (string_desc_arr vendor product serial).getD index [] = str := by
      rw [List.getD_eq_getElem?_getD, hstr]; rfl
    have hmod : str.length % 256 = str.length := Nat.mod_eq_of_lt (by omega)
    have hcb := tud_descriptor_string_cb_pos cs (string_desc_arr vendor product serial) buffer
      index (by omega) (by omega)
    rw [hget, hmod, if_neg (by omega), header_unit _ hlen] at hcb
    refine ⟨_, hcb, ?_, ?_⟩
    · rw [List.length_set, widenLoop_length, hbuf]
    · apply List.ext_getElem?
      intro k
      rw [List.getElem?_take]
      by_cases hk : k < str.length + 1
      · rw [if_pos hk, List.getElem?_set]
        cases k with
        | zero =>
          rw [if_pos rfl, widenLoop_length, if_pos (by omega)]
          simp
        | succ j =>
          rw [if_neg (by omega), widenLoop_getElem?, if_pos (by omega)]
          have hj : j < str.length := by omega
          have hc : str.getD j 0 = str[j] := List.getD_eq_getElem _ _ hj
          have hmem : str[j] ∈ str := List.getElem_mem hj
          simp only [Nat.add_sub_cancel, List.getElem?_cons_succ]
          rw [hc, charToU16_ascii cs _ (hascii _ hmem), List.getElem?_eq_getElem hj]
      · rw [if_neg hk]
        symm
        apply List.getElem?_eq_none
        simp only [List.length_cons]
        omega
  · intro index h7
    unfold tud_descriptor_string_cb
    rw [if_pos (by omega)]

/-- C9 at a concrete input: a zeroed buffer and the interface string of index 4. -/
theorem C9_string_descriptor_witness :
    (List.replicate 32 0).length = 32 ∧
    (string_desc_arr (cstr "zli117") (cstr "Pico Keyboard") (cstr "000001"))[4]?
      = some (cstr "Keyboard") ∧
    (∃ b, tud_descriptor_string_cb false
        (string_desc_arr (cstr "zli117") (cstr "Pico Keyboard") (cstr "000001"))
        (List.replicate 32 0) 4 = some b ∧
      b.length = 32 ∧
      b.take ((cstr "Keyboard").length + 1)
        = ((TUSB_DESC_STRING <<< 8) ||| (2 * ((cstr "Keyboard").length + 1)))
            :: cstr "Keyboard") :=
  ⟨by decide, by rfl,
   (C9_string_descriptor_encoding false (cstr "zli117") (cstr "Pico Keyboard") (cstr "000001")
      (List.replicate 32 0) (by decide)).2.1 4 (cstr "Keyboard") (by decide) (by decide)
      (by rfl) (by decide) (by decide)⟩

/-- C10: `main` calls `vTaskStartScheduler` if and only if `InitializeStorage`,
`RunnerInit` and `RunnerStart`, each run on the state the previous one left,
all return `OK`, and then it has called the three in that order before it; as
soon as one of them returns another status, the later steps and the scheduler
are not called and `main` goes to the spin loop. -/
theorem C10_fail_fast_startup {W : Type} (env : BootEnv W) (w : W) :
    let r1 := env.InitializeStorage w
    let r2 := env.RunnerInit r1.2
    let r3 := env.RunnerStart r2.2
    (BootCall.vTaskStartScheduler ∈ main env w ↔
      (r1.1 = Status.OK ∧ r2.1 = Status.OK ∧ r3.1 = Status.OK)) ∧
    (r1.1 = Status.OK → r2.1 = Status.OK → r3.1 = Status.OK →
      main env w =
        [BootCall.InitializeStorage, BootCall.RunnerInit, BootCall.RunnerStart,
          BootCall.vTaskStartScheduler] ++
        (if env.schedulerReturns r3.2 then [BootCall.spin] else [])) ∧
    (r1.1 ≠ Status.OK → main env w = [BootCall.InitializeStorage, BootCall.spin]) ∧
    (r1.1 = Status.OK → r2.1 ≠ Status.OK →
      main env w = [BootCall.InitializeStorage, BootCall.RunnerInit, BootCall.spin]) ∧
    (r1.1 = Status.OK → r2.1 = Status.OK → r3.1 ≠ Status.OK →
      main env w =
        [BootCall.InitializeStorage, BootCall.RunnerInit, BootCall.RunnerStart,
          BootCall.spin]) := by
  intro r1 r2 r3
  have hmain : main env w =
      if r1.1 = Status.OK then
        if r2.1 = Status.OK then
          if r3.1 = Status.OK then
            [BootCall.InitializeStorage, BootCall.RunnerInit, BootCall.RunnerStart,
              BootCall.vTaskStartScheduler] ++
              (if env.schedulerReturns r3.2 then [BootCall.spin] else [])
          else
            [BootCall.InitializeStorage, BootCall.RunnerInit, BootCall.RunnerStart,
              BootCall.spin]
        else [BootCall.InitializeStorage, BootCall.RunnerInit, BootCall.spin]
      else [BootCall.InitializeStorage, BootCall.spin] := rfl
  by_cases h1 : r1.1 = Status.OK
  · by_cases h2 : r2.1 = Status.OK
    · by_cases h3 : r3.1 = Status.OK
      · rw [hmain, if_pos h1, if_pos h2, if_pos h3]
        refine ⟨⟨fun _ => ⟨h1, h2, h3⟩, fun _ => by simp⟩, fun _ _ _ => rfl,
          fun h => absurd h1 h, fun _ h => absurd h2 h, fun _ _ h => absurd h3 h⟩
      · rw [hmain, if_pos h1, if_pos h2, if_neg h3]
        refine ⟨⟨fun h => by simp at h, fun h => absurd h.2.2 h3⟩, fun _ _ h => absurd h h3,
          fun h => absurd h1 h, fun _ h => absurd h2 h, fun _ _ _ => rfl⟩
    · rw [hmain, if_pos h1, if_neg h2]
      refine ⟨⟨fun h => by simp at h, fun h => absurd h.2.1 h2⟩, fun _ h => absurd h h2,
        fun h => absurd h1 h, fun _ _ => rfl, fun _ h => absurd h h2⟩
  · rw [hmain, if_neg h1]
    refine ⟨⟨fun h => by simp at h, fun h => absurd h.1 h1⟩, fun h => absurd h h1,
      fun _ => rfl, fun h => absurd h h1, fun h => absurd h h1⟩

/-- C10 at a concrete environment: the runner fails to start, so `main` calls
the three steps and spins without starting the scheduler. -/
theorem C10_fail_fast_witness :
    BootCall.vTaskStartScheduler ∉ main startFailsEnv 0 ∧
    main startFailsEnv 0 =
      [BootCall.InitializeStorage, BootCall.RunnerInit, BootCall.RunnerStart, BootCall.spin] :=
  ⟨fun h => by
      have h3 := ((C10_fail_fast_startup startFailsEnv 0).1.mp h).2.2
      exact absurd h3 (by decide),
   (C10_fail_fast_startup startFailsEnv 0).2.2.2.2 rfl rfl (by decide)⟩

/-- C8: for every list `layers`, `ChangeActiveLayers` makes, for each index `i`
below `min (length, 16)` in increasing order and for no other index, one call
`DrawRect (1, 8 i + 1, 7, 8 i + 7, fill, mode)` with mode `ADD` when `layers[i]`
is true and `SUBTRACT` when it is false. The rectangles of distinct indicators
are disjoint and those of indicators below 16 lie within the 128 columns. With a
`fillRect` that meets its contract on a panel of at least 8 rows, every pixel of
indicator `i` below `min (length, 16)` ends set when `layers[i]` is true and
clear when it is false, every pixel of the panel outside these indicators keeps
its value (so the indicators from the list length on are untouched), and the
slot the library does not draw into is unchanged. -/
theorem C8_layer_highlight (r : Renderer) (pixel : Frame → Nat → Nat → Bool) (rows : Nat)
    (hrows : 8 ≤ rows) (hfill : FillRectContract pixel rows r.fillRect)
    (layers : List Bool) (s : SSD1306Display) :
    ChangeActiveLayers r layers s =
      (List.range (min layers.length 16)).foldl
        (fun st i => DrawRect r 1 (i * 8 + 1) 7 (i * 8 + 7) true
          (if layers.getD i false then Mode.ADD else Mode.SUBTRACT) st) s ∧
    (∀ i j row col, inIndicator i row col → inIndicator j row col → i = j) ∧
    (∀ i row col, i < 16 → inIndicator i row col → col < PANEL_COLS ∧ row < rows) ∧
    (∀ i row col, i < min layers.length 16 → inIndicator i row col →
      pixel ((ChangeActiveLayers r layers s).double_buffer_ s.display_buffer_) row col
        = layers.getD i false) ∧
    (∀ row col, col < PANEL_COLS → row < rows →
      (∀ i, i < min layers.length 16 → ¬ inIndicator i row col) →
      pixel ((ChangeActiveLayers r layers s).double_buffer_ s.display_buffer_) row col
        = pixel (s.double_buffer_ s.display_buffer_) row col) ∧
    (∀ j, j ≠ s.display_buffer_ →
      (ChangeActiveLayers r layers s).double_buffer_ j = s.double_buffer_ j) := by
  have hfold : ChangeActiveLayers r layers s =
      (List.range (min layers.length 16)).foldl
        (fun st i => DrawRect r 1 (i * 8 + 1) 7 (i * 8 + 7) true
          (if layers.getD i false then Mode.ADD else Mode.SUBTRACT) st) s := by
    unfold ChangeActiveLayers
    rw [changeActiveLayersLoop_eq_foldl r layers 16 0 s (by omega), List.range_eq_range']
    rfl
  obtain ⟨_, h2, h3⟩ := highlight_prefix r pixel rows hrows hfill layers s
    (min layers.length 16) (by omega)
  refine ⟨hfold, ?_, ?_, ?_, ?_, ?_⟩
  · intro i j row col hi hj
    unfold inIndicator at hi hj
    omega
  · intro i row col hi hin
    unfold inIndicator at hin
    unfold PANEL_COLS
    omega
  · intro i row col hi hin
    have hq : col / 8 = i := by unfold inIndicator at hin; omega
    have hcol : col < PANEL_COLS := by
      unfold inIndicator at hin; unfold PANEL_COLS; omega
    have hrow : row < rows := by unfold inIndicator at hin; omega
    rw [hfold, h3 row col hcol hrow, if_pos ⟨by omega, by rw [hq]; exact hin⟩, hq]
  · intro row col hcol hrow hout
    rw [hfold, h3 row col hcol hrow, if_neg (fun h => hout _ h.1 h.2)]
  · intro j hj
    rw [hfold]
    exact h2 j hj

/-- C8 at the input `[true, false, true]` on the boot display with the panel
renderer: indicators 0 and 2 end filled, indicator 1 ends clear, and the
indicators 3..15 keep their pixels. -/
theorem C8_layer_highlight_witness :
    8 ≤ 64 ∧ FillRectContract getPixel 64 panelRenderer.fillRect ∧
    (∀ row col, inIndicator 0 row col →
      getPixel ((ChangeActiveLayers panelRenderer [true, false, true] bootDisplay).double_buffer_
        bootDisplay.display_buffer_) row col = true) ∧
    (∀ row col, inIndicator 1 row col →
      getPixel ((ChangeActiveLayers panelRenderer [true, false, true] bootDisplay).double_buffer_
        bootDisplay.display_buffer_) row col = false) ∧
    (∀ row col, inIndicator 2 row col →
      getPixel ((ChangeActiveLayers panelRenderer [true, false, true] bootDisplay).double_buffer_
        bootDisplay.display_buffer_) row col = true) ∧
    (∀ i row col, 3 ≤ i → i < 16 → inIndicator i row col →
      getPixel ((ChangeActiveLayers panelRenderer [true, false, true] bootDisplay).double_buffer_
        bootDisplay.display_buffer_) row col
        = getPixel (bootDisplay.double_buffer_ bootDisplay.display_buffer_) row col) :=
  ⟨by decide, panelFillRect_contract,
   fun row col h =>
    (C8_layer_highlight panelRenderer getPixel 64 (by decide) panelFillRect_contract
      [true, false, true] bootDisplay).2.2.2.1 0 row col (by decide) h,
   fun row col h =>
    (C8_layer_highlight panelRenderer getPixel 64 (by decide) panelFillRect_contract
      [true, false, true] bootDisplay).2.2.2.1 1 row col (by decide) h,
   fun row col h =>
    (C8_layer_highlight panelRenderer getPixel 64 (by decide) panelFillRect_contract
      [true, false, true] bootDisplay).2.2.2.1 2 row col (by decide) h,
   fun i row col h3 h16 h =>
    (C8_layer_highlight panelRenderer getPixel 64 (by decide) panelFillRect_contract
      [true, false, true] bootDisplay).2.2.2.2.1 row col
      (by unfold inIndicator at h; unfold PANEL_COLS; omega)
      (by unfold inIndicator at h; omega)
      (fun j hj hin => by
        have hj3 : j < 3 := by simpa using hj
        unfold inIndicator at h hin
        omega)⟩

/-- C11: in every state reached from construction through any sequence of
`StartOfInputTick`, mutators, `FinalizeInputTickOutput` and `OutputTick`, the
slot the library draws into is the non-active slot `(buffer_idx_ + 1) mod 2`.
Consequently no mutator changes the active slot, `OutputTick` changes neither
slot, and every call other than `FinalizeInputTickOutput` leaves the active
index and the content of the active slot as they were. -/
theorem C11_slot_ownership (r : Renderer) (i2c : List Nat → Int)
    (num_rows sleep_s time_us : Nat) (ops : List Op) :
    let s := run r i2c (SSD1306Display.construct num_rows sleep_s time_us) ops
    s.display_buffer_ = otherIdx s.buffer_idx_ ∧
    (∀ op, op.isMutator = true →
      (step r i2c s op).double_buffer_ s.buffer_idx_ = s.double_buffer_ s.buffer_idx_) ∧
    (∀ t, (OutputTick i2c t s).state.double_buffer_ = s.double_buffer_) ∧
    (∀ op, op ≠ Op.finalizeInputTickOutput →
      (step r i2c s op).buffer_idx_ = s.buffer_idx_ ∧
      (step r i2c s op).double_buffer_ s.buffer_idx_ = s.double_buffer_ s.buffer_idx_) := by
  intro s
  have hinv : TargetIsPending s :=
    run_TargetIsPending r i2c _ _ (construct_TargetIsPending num_rows sleep_s time_us)
  have hne : s.buffer_idx_ ≠ s.display_buffer_ := by
    rw [hinv]
    exact ne_otherIdx _
  have hkeep : ∀ op, op ≠ Op.finalizeInputTickOutput →
      (step r i2c s op).buffer_idx_ = s.buffer_idx_ ∧
      (step r i2c s op).double_buffer_ s.buffer_idx_ = s.double_buffer_ s.buffer_idx_ := by
    intro op hop
    obtain ⟨h1, h2⟩ := step_keeps_other_slot r i2c s op hop
    exact ⟨h1, h2 _ hne⟩
  refine ⟨hinv, ?_, fun t => (OutputTick_frame i2c t s).2.1, hkeep⟩
  intro op hm
  have hop : op ≠ Op.finalizeInputTickOutput := by
    intro h
    rw [h] at hm
    simp [Op.isMutator] at hm
  exact (hkeep op hop).2

/-- C11 at a concrete run on the boot display: after an `OutputTick`, a
`StartOfInputTick` and a publish of `ChangeActiveLayers [true, false, true]`,
a `SetPixel` at row 20, column 40 (a pixel that is clear in both slots) leaves
the active index and the active slot alone. -/
theorem C11_slot_ownership_witness :
    (Op.setPixel 20 40 Mode.ADD).isMutator = true ∧
    Op.setPixel 20 40 Mode.ADD ≠ Op.finalizeInputTickOutput ∧
    (let s := run panelRenderer ackBus (SSD1306Display.construct 64 120 1000000)
        (demoBefore ++ [Op.changeActiveLayers [true, false, true], Op.finalizeInputTickOutput])
     s.display_buffer_ = otherIdx s.buffer_idx_ ∧
     (step panelRenderer ackBus s (Op.setPixel 20 40 Mode.ADD)).buffer_idx_ = s.buffer_idx_ ∧
     (step panelRenderer ackBus s (Op.setPixel 20 40 Mode.ADD)).double_buffer_ s.buffer_idx_
       = s.double_buffer_ s.buffer_idx_) :=
  ⟨rfl, fun h => Op.noConfusion h,
   (C11_slot_ownership panelRenderer ackBus 64 120 1000000
      (demoBefore ++ [Op.changeActiveLayers [true, false, true],
        Op.finalizeInputTickOutput])).1,
   ((C11_slot_ownership panelRenderer ackBus 64 120 1000000
      (demoBefore ++ [Op.changeActiveLayers [true, false, true],
        Op.finalizeInputTickOutput])).2.2.2 (Op.setPixel 20 40 Mode.ADD)
      (fun h => Op.noConfusion h)).1,
   ((C11_slot_ownership panelRenderer ackBus 64 120 1000000
      (demoBefore ++ [Op.changeActiveLayers [true, false, true],
        Op.finalizeInputTickOutput])).2.2.2 (Op.setPixel 20 40 Mode.ADD)
      (fun h => Op.noConfusion h)).2⟩

/-- C12 at a table string of 256 characters (the product name, index 2) and a
zeroed buffer: the length, stored in eight bits, becomes 0, so the callback
returns the header of an empty string (length byte 2) and copies no character,
where the first `min (256, 31) = 31` characters and a length byte of 64 were
to be returned. The buffer keeps its 32 units. -/
theorem C12_long_string_is_returned_empty :
    longProductName.length = 256 ∧
    tud_descriptor_string_cb false
        (string_desc_arr (cstr "zli117") longProductName (cstr "000001"))
        (List.replicate 32 0) 2
      = some (0x0302 :: List.replicate 31 0) ∧
    0x0302 % 256 = 2 ∧
    2 * (min 256 31 + 1) = 64 ∧
    (0x0302 :: List.replicate 31 0).take (min 256 31 + 1)
      ≠ ((TUSB_DESC_STRING <<< 8) ||| (2 * (min 256 31 + 1))) :: longProductName.take 31 := by
  have hlen : longProductName.length = 256 := List.length_replicate _ _
  have hget : (string_desc_arr (cstr "zli117") longProductName (cstr "000001")).getD 2 []
      = longProductName := rfl
  have hcb := tud_descriptor_string_cb_pos false
    (string_desc_arr (cstr "zli117") longProductName (cstr "000001")) (List.replicate 32 0) 2
    (by decide) (by decide)
  rw [hget, hlen] at hcb
  refine ⟨hlen, ?_, by decide, by decide, ?_⟩
  · rw [hcb]
    rfl
  · intro h
    have h0 := congrArg (fun l => l.head?) h
    revert h0
    decide

end PicoKeyboard
